import Mathlib

/-!
# A sentinel-terminated vector library (`vector.c`)

Shallow embedding of `src/vector.c`.

* The header `vector.h` is not part of the sources.  What it declares is taken
  as a parameter: the element type `vector` (a C `float`) is an arbitrary type
  `F` carrying the arithmetic the code uses (`0`, `1.0`, `+`, `-`, `*`, `/`, `<`,
  `pow(x, 2)`, the conversion of an `int` length), the macro `VEC_END_FLAG` is a
  value `VEC_END_FLAG : F`, and the library routine `sqrt` is a function
  `sqrt : F → F`.  Every operation of `F` is total, as the C operations are: the
  code guards no division.  The test `v[i] != VEC_END_FLAG` is inequality of values.
* Statements that hold for every such `F` are proved for every such `F`.  Statements
  about the value of a sum, a mean or a square root are proved in exact arithmetic:
  over the reals with `Real.sqrt`, or over a field of characteristic zero.  Rounding
  of `float` is outside this development.
* A `vector *` is `VecPtr F = Option (List F)`: `none` is `NULL`, `some buf` points
  to the first slot of a heap block with contents `buf`.  A valid vector with
  elements `xs` is the block `xs ++ [VEC_END_FLAG]` with `VEC_END_FLAG ∉ xs`.
* A call either returns or does not: `Except Fault`.  A call does not return when
  the code runs `exit(EXIT_FAILURE)` or when it reads or writes outside a block.
* `int` lengths and indices are natural numbers; allocation succeeds.
* Text output is a `String`: `v_print` returns what it writes to standard output and
  `v_write` the text of the file; `v_read` takes the text of the file.  The library's
  conversions (`printf` with `%.*f` and `%f`, `atof`) and the header's `PRINTV_SIGDIGITS`
  and `BUFFER_SIZE` are parameters; `formatFixed` and `parseDecimal` are instances of the
  conversions on rationals, used to run the definitions on concrete vectors and to
  state what is lost when six decimals are written and read back.
-/

namespace CVector

/-- Ways in which a call does not return. -/
inductive Fault where
  /-- The code printed `stderr` to the error stream and ran `exit(EXIT_FAILURE)`. -/
  | exitFailure (stderr : String)
  /-- An access through `NULL`. -/
  | nullDeref
  /-- An access past the last slot of a block. -/
  | outOfBounds
  deriving DecidableEq, Repr

/-- A value of C type `vector *`: `NULL` or the contents of the block pointed to. -/
abbrev VecPtr (F : Type) := Option (List F)

/-- The read `v[i]`. -/
def load {F : Type} (v : VecPtr F) (i : Nat) : Except Fault F :=
  match v with
  | none => .error .nullDeref
  | some buf =>
    match buf[i]? with
    | some x => .ok x
    | none => .error .outOfBounds

/-- The write `v[i] = x`. -/
def store {F : Type} (v : VecPtr F) (i : Nat) (x : F) : Except Fault (VecPtr F) :=
  match v with
  | none => .error .nullDeref
  | some buf => if i < buf.length then .ok (some (buf.set i x)) else .error .outOfBounds

/-- The loop `for (int i = start; i < start + count; i++) body`, threading the
variables the body assigns through `σ`. -/
def forLoop {σ : Type} (body : Nat → σ → Except Fault σ) : Nat → Nat → σ → Except Fault σ
  | 0, _, s => .ok s
  | count + 1, i, s => body i s >>= forLoop body count (i + 1)

/-- `vector *v_make(int n)`: `calloc(n + 1, ..)` then `v[n] = VEC_END_FLAG`. -/
def v_make {F : Type} [Zero F] (VEC_END_FLAG : F) (n : Nat) : Except Fault (VecPtr F) :=
  store (some (List.replicate (n + 1) 0)) n VEC_END_FLAG

/-- `void assertValidVec(vector *vec)`. -/
def assertValidVec {F : Type} (vec : VecPtr F) : Except Fault Unit :=
  match vec with
  | none => .error (.exitFailure "Attempting to manipulate NULL vector\n")
  | some _ => .ok ()

/-- The loop of `v_len`, `while (v[i] != VEC_END_FLAG) i++`, where `rest` is the
block from slot `i` on. -/
def v_len.scan {F : Type} [DecidableEq F] (VEC_END_FLAG : F) : List F → Nat → Except Fault Nat
  | [], _ => .error .outOfBounds
  | x :: rest, i => if x ≠ VEC_END_FLAG then v_len.scan VEC_END_FLAG rest (i + 1) else .ok i

/-- `int v_len(vector *v)`. -/
def v_len {F : Type} [DecidableEq F] (VEC_END_FLAG : F) (v : VecPtr F) : Except Fault Nat :=
  match v with
  | none => .error .nullDeref
  | some buf => v_len.scan VEC_END_FLAG buf 0

/-- `vector *v_fill(int n, float s)`. -/
def v_fill {F : Type} [Zero F] (VEC_END_FLAG : F) (n : Nat) (s : F) : Except Fault (VecPtr F) := do
  let v ← v_make VEC_END_FLAG n
  forLoop (fun i v => store v i s) n 0 v

/-- `vector *v_ones(int n)`. -/
def v_ones {F : Type} [Zero F] [One F] (VEC_END_FLAG : F) (n : Nat) : Except Fault (VecPtr F) :=
  v_fill VEC_END_FLAG n 1

/-- The text `fprintf` writes for `"Attempting to add vectors of unequal length: %d - %d"`. -/
def unequalLengthMessage (alength blength : Nat) : String :=
  "Attempting to add vectors of unequal length: " ++ toString alength ++ " - " ++ toString blength

/-- `void assertValidOperation(vector *a, vector *b)`. -/
def assertValidOperation {F : Type} [DecidableEq F] (VEC_END_FLAG : F) (a b : VecPtr F) :
    Except Fault Unit := do
  let la ← v_len VEC_END_FLAG a
  let lb ← v_len VEC_END_FLAG b
  if la ≠ lb then
    let alength ← v_len VEC_END_FLAG a
    let blength ← v_len VEC_END_FLAG b
    throw (.exitFailure (unequalLengthMessage alength blength ++ "\n"))
  else
    pure ()

/-- `vector *v_add(vector *a, vector *b)`. -/
def v_add {F : Type} [DecidableEq F] [Zero F] [Add F] (VEC_END_FLAG : F) (a b : VecPtr F) :
    Except Fault (VecPtr F) := do
  assertValidOperation VEC_END_FLAG a b
  let n ← v_len VEC_END_FLAG a
  let result ← v_make VEC_END_FLAG n
  forLoop (fun i result => do
    let x ← load a i
    let y ← load b i
    store result i (x + y)) n 0 result

/-- `vector *v_sub(vector *a, vector *b)`. -/
def v_sub {F : Type} [DecidableEq F] [Zero F] [Sub F] (VEC_END_FLAG : F) (a b : VecPtr F) :
    Except Fault (VecPtr F) := do
  assertValidOperation VEC_END_FLAG a b
  let n ← v_len VEC_END_FLAG a
  let result ← v_make VEC_END_FLAG n
  forLoop (fun i result => do
    let x ← load a i
    let y ← load b i
    store result i (x - y)) n 0 result

/-- `vector *v_mul(vector *a, float c)`. -/
def v_mul {F : Type} [DecidableEq F] [Zero F] [Mul F] (VEC_END_FLAG : F) (a : VecPtr F) (c : F) :
    Except Fault (VecPtr F) := do
  let n ← v_len VEC_END_FLAG a
  let result ← v_make VEC_END_FLAG n
  forLoop (fun i result => do
    let x ← load a i
    store result i (x * c)) n 0 result

/-- `vector *v_div(vector *a, float c)`. -/
def v_div {F : Type} [DecidableEq F] [Zero F] [Div F] (VEC_END_FLAG : F) (a : VecPtr F) (c : F) :
    Except Fault (VecPtr F) := do
  let n ← v_len VEC_END_FLAG a
  let result ← v_make VEC_END_FLAG n
  forLoop (fun i result => do
    let x ← load a i
    store result i (x / c)) n 0 result

/-- `float v_mag(vector *vec)`. -/
def v_mag {F : Type} [DecidableEq F] [Zero F] [Add F] [Mul F] (sqrt : F → F) (VEC_END_FLAG : F)
    (vec : VecPtr F) : Except Fault F := do
  let n ← v_len VEC_END_FLAG vec
  let sum ← forLoop (fun i sum => do
    let f ← load vec i
    pure (sum + f * f)) n 0 (0 : F)
  pure (sqrt sum)

/-- `float v_dot(vector *a, vector *b)`. -/
def v_dot {F : Type} [DecidableEq F] [Zero F] [Add F] [Mul F] (VEC_END_FLAG : F)
    (a b : VecPtr F) : Except Fault F := do
  let n1 ← v_len VEC_END_FLAG a
  let n2 ← v_len VEC_END_FLAG b
  if n1 ≠ n2 then
    throw (.exitFailure (unequalLengthMessage n1 n2))
  else
    let n := n1
    forLoop (fun i sum => do
      let x ← load a i
      let y ← load b i
      pure (sum + x * y)) n 0 (0 : F)

/-- `vector *v_unit(vector *vec)`. -/
def v_unit {F : Type} [DecidableEq F] [Zero F] [Add F] [Mul F] [Div F] (sqrt : F → F)
    (VEC_END_FLAG : F) (vec : VecPtr F) : Except Fault (VecPtr F) := do
  let n ← v_len VEC_END_FLAG vec
  let mag ← v_mag sqrt VEC_END_FLAG vec
  let _c ← v_make VEC_END_FLAG n
  let c ← v_div VEC_END_FLAG vec mag
  pure c

/-- `float v_project(vector *a, vector *b)`. -/
def v_project {F : Type} [DecidableEq F] [Zero F] [Add F] [Mul F] [Div F] (sqrt : F → F)
    (VEC_END_FLAG : F) (a b : VecPtr F) : Except Fault F := do
  let bnorm ← v_unit sqrt VEC_END_FLAG b
  let dp ← v_dot VEC_END_FLAG a bnorm
  pure dp

/-- `float v_cosine(vector *a, vector *b)`. -/
def v_cosine {F : Type} [DecidableEq F] [Zero F] [Add F] [Mul F] [Div F] (sqrt : F → F)
    (VEC_END_FLAG : F) (a b : VecPtr F) : Except Fault F := do
  let dp ← v_dot VEC_END_FLAG a b
  let a_mag ← v_mag sqrt VEC_END_FLAG a
  let b_mag ← v_mag sqrt VEC_END_FLAG b
  pure (dp / (a_mag * b_mag))

/-- `float v_sum(vector *vec)`. -/
def v_sum {F : Type} [DecidableEq F] [Zero F] [Add F] (VEC_END_FLAG : F) (vec : VecPtr F) :
    Except Fault F := do
  let n ← v_len VEC_END_FLAG vec
  forLoop (fun i sum => do
    let f ← load vec i
    pure (sum + f)) n 0 (0 : F)

/-- `float v_mean(vector *vec)`; `sum / len` converts the `int` to `float`. -/
def v_mean {F : Type} [DecidableEq F] [Zero F] [Add F] [Div F] [NatCast F] (VEC_END_FLAG : F)
    (vec : VecPtr F) : Except Fault F := do
  assertValidVec vec
  let len ← v_len VEC_END_FLAG vec
  let sum ← v_sum VEC_END_FLAG vec
  pure (sum / (len : F))

/-- One pass of the body shared by the scans of `v_range` and `v_minmaxscale`:
the state is `(min_val, max_val)`. -/
def minmaxStep {F : Type} [LT F] [DecidableRel (fun x y : F => x < y)] (vec : VecPtr F) (i : Nat)
    (s : F × F) : Except Fault (F × F) := do
  let mut min_val := s.1
  let mut max_val := s.2
  if (← load vec i) < min_val then
    min_val ← load vec i
  if (← load vec i) > max_val then
    max_val ← load vec i
  pure (min_val, max_val)

/-- `float v_range(vector *vec)`. -/
def v_range {F : Type} [DecidableEq F] [Sub F] [LT F] [DecidableRel (fun x y : F => x < y)]
    (VEC_END_FLAG : F) (vec : VecPtr F) : Except Fault F := do
  assertValidVec vec
  let len ← v_len VEC_END_FLAG vec
  let min_val ← load vec 0
  let max_val ← load vec 0
  let (min_val, max_val) ← forLoop (minmaxStep vec) (len - 1) 1 (min_val, max_val)
  pure (max_val - min_val)

/-- `float v_std(vector *vec)`; `pow(x, 2)` is `x ^ 2`. -/
def v_std {F : Type} [DecidableEq F] [Zero F] [Add F] [Sub F] [Div F] [NatCast F] [Pow F Nat]
    (sqrt : F → F) (VEC_END_FLAG : F) (vec : VecPtr F) : Except Fault F := do
  assertValidVec vec
  let len ← v_len VEC_END_FLAG vec
  let mean ← v_mean VEC_END_FLAG vec
  let sum ← forLoop (fun i sum => do
    let x ← load vec i
    pure (sum + (x - mean) ^ 2)) len 0 (0 : F)
  pure (sqrt (sum / (len : F)))

/-- `vector *v_clamp(vector *a, float minV, float maxV)`. -/
def v_clamp {F : Type} [DecidableEq F] [Zero F] [LT F] [DecidableRel (fun x y : F => x < y)]
    (VEC_END_FLAG : F) (a : VecPtr F) (minV maxV : F) : Except Fault (VecPtr F) := do
  assertValidVec a
  let len ← v_len VEC_END_FLAG a
  let result ← v_make VEC_END_FLAG len
  forLoop (fun i result => do
    if (← load a i) < minV then
      store result i minV
    else if (← load a i) > maxV then
      store result i maxV
    else
      store result i (← load a i)) len 0 result

/-- `vector *v_minmaxscale(vector *a)`. -/
def v_minmaxscale {F : Type} [DecidableEq F] [Zero F] [Sub F] [Div F] [LT F]
    [DecidableRel (fun x y : F => x < y)] (VEC_END_FLAG : F) (a : VecPtr F) :
    Except Fault (VecPtr F) := do
  assertValidVec a
  let len ← v_len VEC_END_FLAG a
  let result ← v_make VEC_END_FLAG len
  let min_val ← load a 0
  let max_val ← load a 0
  let (min_val, max_val) ← forLoop (minmaxStep a) (len - 1) 1 (min_val, max_val)
  let range := max_val - min_val
  forLoop (fun i result => do
    let x ← load a i
    store result i ((x - min_val) / range)) len 0 result

/-- `vector *v_standardize(vector *a)`. -/
def v_standardize {F : Type} [DecidableEq F] [Zero F] [Add F] [Sub F] [Div F] [NatCast F]
    [Pow F Nat] (sqrt : F → F) (VEC_END_FLAG : F) (a : VecPtr F) : Except Fault (VecPtr F) := do
  assertValidVec a
  let len ← v_len VEC_END_FLAG a
  let result ← v_make VEC_END_FLAG len
  let mean ← v_mean VEC_END_FLAG a
  let std_dev ← v_std sqrt VEC_END_FLAG a
  forLoop (fun i result => do
    let x ← load a i
    store result i ((x - mean) / std_dev)) len 0 result

/-- `void v_print(vector *vec)`: the text written to standard output.  The header's macro
`PRINTV_SIGDIGITS` is a parameter, and `fmt digits x` is the text that the library call
`printf("%.*f", digits, x)` writes. -/
def v_print {F : Type} [DecidableEq F] (fmt : Nat → F → String) (PRINTV_SIGDIGITS : Nat)
    (VEC_END_FLAG : F) (vec : VecPtr F) : Except Fault String := do
  let len ← v_len VEC_END_FLAG vec
  let out := "["
  let out ← forLoop (fun i out => do
    let out := out ++ fmt PRINTV_SIGDIGITS (← load vec i)
    if i < len - 1 then
      pure (out ++ " ")
    else
      pure out) len 0 out
  pure (out ++ "] n=" ++ toString len ++ "\n")

/-- An instance of `printf("%.*f", digits, x)` for rational `x`: `x` rounded to `digits` digits
after the decimal point, to the nearest such number and to the even one on a tie. -/
def formatFixed (digits : Nat) (x : ℚ) : String :=
  let numer : Nat := x.num.natAbs * 10 ^ digits
  let below : Nat := numer / x.den
  let twice : Nat := 2 * (numer % x.den)
  let scaled : Nat :=
    if twice < x.den then below
    else if x.den < twice then below + 1
    else if below % 2 = 0 then below else below + 1
  let whole := toString (scaled / 10 ^ digits)
  let frac := toString (scaled % 10 ^ digits)
  let sign := if x.num < 0 then "-" else ""
  if digits = 0 then sign ++ whole
  else sign ++ whole ++ "." ++ String.mk (List.replicate (digits - frac.length) '0') ++ frac

/-- Modelled from the spec: the absent `countLines`, which "counts newline-terminated lines in
a file, fails the same way file-open does if the file is missing" (section 6).  `file` is the
text of the file named `filename`, and `none` when the file cannot be opened. -/
def countLines (filename : String) (file : Option String) : Except Fault Nat :=
  match file with
  | none => .error (.exitFailure ("File does not exist: " ++ filename ++ "\n"))
  | some text => .ok (text.data.count '\n')

/-- The characters one call of `fgets` moves to a buffer with room for `room` of them, and the
text left unread: the call stops after a newline, at the end of the text, or when the buffer
is full. -/
def fgets.read : Nat → List Char → List Char × List Char
  | 0, unread => ([], unread)
  | _ + 1, [] => ([], [])
  | room + 1, c :: unread =>
    if c = '\n' then ([c], unread)
    else (c :: (fgets.read room unread).1, (fgets.read room unread).2)

/-- The library call `fgets(buffer, size, file)` on the text not yet read: `none` when it
returns `NULL`, at the end of the file, else the string left in `buffer` and the text still
unread. -/
def fgets (size : Nat) (unread : List Char) : Option (String × List Char) :=
  match unread with
  | [] => none
  | _ :: _ => some (String.mk (fgets.read (size - 1) unread).1, (fgets.read (size - 1) unread).2)

/-- The loop of `v_read`, `while (fgets(buffer, BUFFER_SIZE, file) != NULL) v[i++] = atof(buffer)`.
Every pass writes one slot further and a write outside the block does not return, so the loop
makes at most one pass more than the block has slots; `passes` counts the passes down from a
number above that. -/
def v_read.loop {F : Type} (atof : String → F) (BUFFER_SIZE : Nat) :
    Nat → List Char → Nat → VecPtr F → Except Fault (VecPtr F)
  | 0, _, _, _ => .error .outOfBounds
  | passes + 1, unread, i, v =>
    match fgets BUFFER_SIZE unread with
    | none => .ok v
    | some (buffer, unread) => do
      let v ← store v i (atof buffer)
      v_read.loop atof BUFFER_SIZE passes unread (i + 1) v

/-- `vector *v_read(char *filename)`.  `file` is the text of the file named `filename`, and
`none` when `fopen(filename, "r")` returns `NULL`; the header's macro `BUFFER_SIZE` and the
library routine `atof` are parameters. -/
def v_read {F : Type} [Zero F] (atof : String → F) (BUFFER_SIZE : Nat) (VEC_END_FLAG : F)
    (filename : String) (file : Option String) : Except Fault (VecPtr F) :=
  match file with
  | none => .error (.exitFailure ("File does not exist: " ++ filename ++ "\n"))
  | some text => do
    let num_lines ← countLines filename file
    let v ← v_make VEC_END_FLAG num_lines
    v_read.loop atof BUFFER_SIZE (num_lines + 2) text.data 0 v

/-- The value of the decimal digits at the head of a text, appended to the digits read so far
(`acc`), with the number of digits read (`count`) and the text after them. -/
def parseDecimal.digits : List Char → Nat → Nat → Nat × Nat × List Char
  | [], acc, count => (acc, count, [])
  | c :: rest, acc, count =>
    if c.isDigit then parseDecimal.digits rest (10 * acc + (c.toNat - 48)) (count + 1)
    else (acc, count, c :: rest)

/-- An instance of `atof` with rational values, for the texts `%f` writes for a number: white
space, an optional sign, digits, an optional point and digits; the rest of the text is
ignored, and a text without digits has the value `0`. -/
def parseDecimal (text : String) : ℚ :=
  let chars := text.data.dropWhile Char.isWhitespace
  let negative := chars.head? = some '-'
  let chars := if chars.head? = some '-' ∨ chars.head? = some '+' then chars.tail else chars
  let whole := parseDecimal.digits chars 0 0
  let all := if whole.2.2.head? = some '.' then parseDecimal.digits whole.2.2.tail whole.1 0
    else (whole.1, 0, whole.2.2)
  let value : ℚ := mkRat all.1 (10 ^ all.2.1)
  if negative then -value else value

/-- The block of a valid vector with elements `xs`: `xs.length + 1` slots, the
terminator in the last one. It is a valid vector when `VEC_END_FLAG ∉ xs`. -/
def vec {F : Type} (VEC_END_FLAG : F) (xs : List F) : VecPtr F :=
  some (xs ++ [VEC_END_FLAG])

/-- The element `v_clamp` writes for the input element `x`. -/
def clampTo {F : Type} [LT F] [DecidableRel (fun x y : F => x < y)] (minV maxV x : F) : F :=
  if x < minV then minV else if x > maxV then maxV else x

/-- The running `(min_val, max_val)` after the scan has seen `x`. -/
def minmaxUpdate {F : Type} [LT F] [DecidableRel (fun x y : F => x < y)] (s : F × F) (x : F) :
    F × F :=
  (if x < s.1 then x else s.1, if x > s.2 then x else s.2)

/-- The pair `(min_val, max_val)` the scan leaves for a valid vector with elements `xs`. -/
def minmaxOf {F : Type} [LT F] [DecidableRel (fun x y : F => x < y)] (FLAG : F) (xs : List F) :
    F × F :=
  xs.tail.foldl minmaxUpdate (xs.headD FLAG, xs.headD FLAG)

/-- The call `r` returned a block of `n + 1` slots with the terminator in slot `n`, and
`v_len` of that block is `n` exactly when none of its first `n` slots holds the terminator. -/
def ReturnsBlock {F : Type} [DecidableEq F] (VEC_END_FLAG : F) (n : Nat)
    (r : Except Fault (VecPtr F)) : Prop :=
  ∃ zs : List F, r = .ok (vec VEC_END_FLAG zs) ∧ zs.length = n ∧
    ((r >>= v_len VEC_END_FLAG) = .ok n ↔ VEC_END_FLAG ∉ zs)

/-- Modelled from the spec: an element type in which "division by zero yields NaN" (sections
4.3 and 4.5), the rest of the arithmetic being exact.  `fin q` is the number `q`; `nan` is the
result of a division by zero and of every operation on `nan`.  It is used to trace the code
where it divides `0` by `0`; infinities are not told from `nan`. -/
inductive NanRat where
  | fin (q : ℚ)
  | nan
  deriving DecidableEq

/-- A binary operation of `NanRat` that is exact on numbers. -/
def NanRat.lift₂ (op : ℚ → ℚ → ℚ) : NanRat → NanRat → NanRat
  | .fin a, .fin b => .fin (op a b)
  | _, _ => .nan

instance : Zero NanRat := ⟨.fin 0⟩

instance : Add NanRat := ⟨NanRat.lift₂ (fun a b => a + b)⟩

instance : Sub NanRat := ⟨NanRat.lift₂ (fun a b => a - b)⟩

instance : Mul NanRat := ⟨NanRat.lift₂ (fun a b => a * b)⟩

/-- The quotient; by zero it is `nan`. -/
def NanRat.div : NanRat → NanRat → NanRat
  | .fin a, .fin b => if b = 0 then .nan else .fin (a / b)
  | _, _ => .nan

instance : Div NanRat := ⟨NanRat.div⟩

instance : NatCast NanRat := ⟨fun n => .fin n⟩

instance : Pow NanRat Nat := ⟨fun x k => match x with | .fin a => .fin (a ^ k) | .nan => .nan⟩

/-- The square root on `NanRat`: `nan` for `nan` and for negative numbers, exact on the
squares of rationals and rounded down in numerator and denominator otherwise. -/
def NanRat.sqrt : NanRat → NanRat
  | .fin a => if a < 0 then .nan else .fin (mkRat (Nat.sqrt a.num.toNat) (Nat.sqrt a.den))
  | .nan => .nan

/-! ## Memory accesses and loops -/

theorem load_vec {F : Type} (FLAG : F) (xs : List F) (i : Nat) (x : F) (h : xs[i]? = some x) :
    load (vec FLAG xs) i = .ok x := by
  have hi : i < xs.length := by
    by_contra hc
    rw [List.getElem?_eq_none (by omega)] at h
    cases h
  simp [load, vec, List.getElem?_append_left hi, h]

theorem load_vec_length {F : Type} (FLAG : F) (xs : List F) :
    load (vec FLAG xs) xs.length = .ok FLAG := by
  simp [load, vec]

theorem store_mid {F : Type} (pre post : List F) (o y : F) :
    store (some (pre ++ o :: post)) pre.length y = .ok (some (pre ++ y :: post)) := by
  simp [store]

/-- A loop whose pass `i` is the single write `result[i] = ys[i - start]` overwrites the
slots `start .. start + ys.length - 1` with `ys`. -/
theorem forLoop_store {F : Type} (body : Nat → VecPtr F → Except Fault (VecPtr F))
    (ys : List F) : ∀ (pre old post : List F), old.length = ys.length →
    (∀ j y, ys[j]? = some y → ∀ r, body (pre.length + j) r = store r (pre.length + j) y) →
    forLoop body ys.length pre.length (some (pre ++ old ++ post))
      = .ok (some (pre ++ ys ++ post)) := by
  induction ys with
  | nil =>
    intro pre old post hlen _
    have : old = [] := List.length_eq_zero.mp hlen
    simp [forLoop, this]
  | cons y ys ih =>
    intro pre old post hlen hbody
    cases old with
    | nil => simp at hlen
    | cons o old =>
      have h0 := hbody 0 y (by simp) (some (pre ++ (o :: old) ++ post))
      simp only [Nat.add_zero] at h0
      have hst : store (some (pre ++ (o :: old) ++ post)) pre.length y
          = .ok (some ((pre ++ [y]) ++ old ++ post)) := by
        have := store_mid pre (old ++ post) o y
        simpa using this
      have hih := ih (pre ++ [y]) old post (by simpa using hlen) (by
        intro j z hz r
        have := hbody (j + 1) z (by simpa using hz) r
        simpa [Nat.add_assoc, Nat.add_comm 1 j] using this)
      simp only [List.length_cons, forLoop, h0, hst]
      simp only [List.length_append, List.length_singleton] at hih
      simpa [bind, Except.bind] using hih

/-- A loop whose pass `i` folds the element `xs[i - start]` into the accumulator. -/
theorem forLoop_fold {σ α : Type} (body : Nat → σ → Except Fault σ) (step : σ → α → σ)
    (xs : List α) : ∀ (start : Nat) (s : σ),
    (∀ j x, xs[j]? = some x → ∀ t, body (start + j) t = .ok (step t x)) →
    forLoop body xs.length start s = .ok (xs.foldl step s) := by
  induction xs with
  | nil => intro start s _; simp [forLoop]
  | cons x xs ih =>
    intro start s hbody
    have h0 := hbody 0 x (by simp) s
    simp only [Nat.add_zero] at h0
    have hih := ih (start + 1) (step s x) (by
      intro j z hz t
      have := hbody (j + 1) z (by simpa using hz) t
      simpa [Nat.add_assoc, Nat.add_comm 1 j] using this)
    simp only [List.length_cons, forLoop, h0, List.foldl_cons]
    simpa [bind, Except.bind] using hih

/-! ## Construction and length -/

theorem v_make_eq {F : Type} [Zero F] (FLAG : F) (n : Nat) :
    v_make FLAG n = .ok (some (List.replicate n 0 ++ [FLAG])) := by
  have h := store_mid (List.replicate n (0 : F)) [] 0 FLAG
  simp only [List.length_replicate] at h
  simpa [v_make, List.replicate_succ'] using h

theorem scan_append {F : Type} [DecidableEq F] (FLAG : F) (xs rest : List F) (h : FLAG ∉ xs) :
    ∀ i, v_len.scan FLAG (xs ++ FLAG :: rest) i = .ok (i + xs.length) := by
  induction xs with
  | nil => intro i; simp [v_len.scan]
  | cons x xs ih =>
    intro i
    have hx : x ≠ FLAG := fun e => h (by simp [e])
    have hxs : FLAG ∉ xs := fun e => h (by simp [e])
    simp [v_len.scan, hx, ih hxs, Nat.add_assoc, Nat.add_comm 1]

/-- On a valid vector `v_len` returns the number of elements. -/
theorem v_len_vec {F : Type} [DecidableEq F] (FLAG : F) (xs : List F) (h : FLAG ∉ xs) :
    v_len FLAG (vec FLAG xs) = .ok xs.length := by
  simp [v_len, vec, scan_append FLAG xs [] h]

/-- On any block that ends in the terminator `v_len` returns the index of the first slot
holding the terminator. -/
theorem v_len_block {F : Type} [DecidableEq F] (FLAG : F) (zs : List F) :
    v_len FLAG (vec FLAG zs) = .ok (zs.takeWhile (fun z => z ≠ FLAG)).length := by
  have hsplit : zs ++ [FLAG]
      = zs.takeWhile (fun z => z ≠ FLAG) ++ FLAG :: ((zs ++ [FLAG]).dropWhile (fun z => z ≠ FLAG)).tail := by
    induction zs with
    | nil => simp [List.dropWhile]
    | cons z zs ih =>
      by_cases hz : z = FLAG
      · simp [List.takeWhile, List.dropWhile, hz]
      · simpa [List.takeWhile, List.dropWhile, hz] using ih
  have hnot : FLAG ∉ zs.takeWhile (fun z => z ≠ FLAG) := by
    intro hmem
    have := List.mem_takeWhile_imp hmem
    simp at this
  unfold v_len vec
  simp only []
  rw [hsplit, scan_append FLAG _ _ hnot 0]
  simp

theorem takeWhile_length_eq_iff {F : Type} [DecidableEq F] (FLAG : F) (zs : List F) :
    (zs.takeWhile (fun z => z ≠ FLAG)).length = zs.length ↔ FLAG ∉ zs := by
  induction zs with
  | nil => simp
  | cons z zs ih =>
    by_cases hz : z = FLAG
    · simp [List.takeWhile, hz]
    · have hz2 : ¬ FLAG = z := fun e => hz e.symm
      simpa [List.takeWhile, hz, hz2] using ih

theorem v_fill_eq {F : Type} [Zero F] (FLAG : F) (n : Nat) (s : F) :
    v_fill FLAG n s = .ok (vec FLAG (List.replicate n s)) := by
  have h := forLoop_store (fun i v => store v i s) (List.replicate n s) [] (List.replicate n 0)
    [FLAG] (by simp) (by
      intro j y hy r
      have : y = s := by
        have hh := List.getElem?_replicate (a := s) (n := n) (m := j)
        rw [hh] at hy
        split at hy
        · exact (Option.some.inj hy).symm
        · cases hy
      simp [this])
  simp only [List.length_replicate, List.nil_append, List.length_nil] at h
  simp [v_fill, v_make_eq, bind, Except.bind, h, vec]

/-! ## Element-wise operations -/

theorem assertValidOperation_eq {F : Type} [DecidableEq F] (FLAG : F) (xs ys : List F)
    (hx : FLAG ∉ xs) (hy : FLAG ∉ ys) :
    assertValidOperation FLAG (vec FLAG xs) (vec FLAG ys)
      = if xs.length ≠ ys.length then
          .error (.exitFailure (unequalLengthMessage xs.length ys.length ++ "\n"))
        else .ok () := by
  simp only [assertValidOperation, v_len_vec FLAG xs hx, v_len_vec FLAG ys hy, bind, Except.bind]
  split <;> rfl

/-- A loop writing `op a[i] b[i]` into slot `i` of a fresh block. -/
theorem forLoop_zipWith {F : Type} [Zero F] (FLAG : F) (op : F → F → F) (xs ys : List F)
    (hlen : xs.length = ys.length) :
    forLoop (fun i result => do
        let x ← load (vec FLAG xs) i
        let y ← load (vec FLAG ys) i
        store result i (op x y)) xs.length 0 (some (List.replicate xs.length 0 ++ [FLAG]))
      = .ok (vec FLAG (List.zipWith op xs ys)) := by
  have h := forLoop_store (fun i result => do
        let x ← load (vec FLAG xs) i
        let y ← load (vec FLAG ys) i
        store result i (op x y)) (List.zipWith op xs ys) [] (List.replicate xs.length 0)
    [FLAG] (by simp [hlen]) (by
      intro j z hz r
      rw [List.getElem?_zipWith] at hz
      cases hxj : xs[j]? with
      | none => simp [hxj] at hz
      | some x =>
        cases hyj : ys[j]? with
        | none => simp [hxj, hyj] at hz
        | some y =>
          simp only [hxj, hyj, Option.some.injEq] at hz
          simp [load_vec FLAG xs j x hxj, load_vec FLAG ys j y hyj, bind, Except.bind, hz])
  simp only [List.length_zipWith, hlen, Nat.min_self, List.nil_append, List.length_nil] at h
  simpa [vec, hlen] using h

/-- A loop writing `f a[i]` into slot `i` of a fresh block. -/
theorem forLoop_map {F : Type} [Zero F] (FLAG : F) (f : F → F) (xs : List F)
    (body : Nat → VecPtr F → Except Fault (VecPtr F))
    (hbody : ∀ j x, xs[j]? = some x → ∀ r, body j r = store r j (f x)) :
    forLoop body xs.length 0 (some (List.replicate xs.length 0 ++ [FLAG]))
      = .ok (vec FLAG (xs.map f)) := by
  have h := forLoop_store body (xs.map f) [] (List.replicate xs.length 0)
    [FLAG] (by simp) (by
      intro j z hz r
      rw [List.getElem?_map] at hz
      cases hxj : xs[j]? with
      | none => simp [hxj] at hz
      | some x =>
        simp only [hxj, Option.map_some', Option.some.injEq] at hz
        simpa [hz] using hbody j x hxj r)
  simp only [List.length_map, List.nil_append, List.length_nil] at h
  simpa [vec] using h

theorem v_add_eq {F : Type} [DecidableEq F] [Zero F] [Add F] (FLAG : F) (xs ys : List F)
    (hx : FLAG ∉ xs) (hy : FLAG ∉ ys) (hlen : xs.length = ys.length) :
    v_add FLAG (vec FLAG xs) (vec FLAG ys) = .ok (vec FLAG (List.zipWith (· + ·) xs ys)) := by
  simp only [v_add, assertValidOperation_eq FLAG xs ys hx hy, hlen, v_len_vec FLAG xs hx,
    v_make_eq, bind, Except.bind, ne_eq, not_true_eq_false, if_false]
  rw [← hlen]
  exact forLoop_zipWith FLAG (· + ·) xs ys hlen

theorem v_sub_eq {F : Type} [DecidableEq F] [Zero F] [Sub F] (FLAG : F) (xs ys : List F)
    (hx : FLAG ∉ xs) (hy : FLAG ∉ ys) (hlen : xs.length = ys.length) :
    v_sub FLAG (vec FLAG xs) (vec FLAG ys) = .ok (vec FLAG (List.zipWith (· - ·) xs ys)) := by
  simp only [v_sub, assertValidOperation_eq FLAG xs ys hx hy, hlen, v_len_vec FLAG xs hx,
    v_make_eq, bind, Except.bind, ne_eq, not_true_eq_false, if_false]
  rw [← hlen]
  exact forLoop_zipWith FLAG (· - ·) xs ys hlen

theorem v_mul_eq {F : Type} [DecidableEq F] [Zero F] [Mul F] (FLAG : F) (xs : List F)
    (hx : FLAG ∉ xs) (c : F) :
    v_mul FLAG (vec FLAG xs) c = .ok (vec FLAG (xs.map (fun x => x * c))) := by
  simp only [v_mul, v_len_vec FLAG xs hx, v_make_eq, bind, Except.bind]
  apply forLoop_map FLAG (fun x => x * c) xs
  intro j x hj r
  simp [load_vec FLAG xs j x hj, bind, Except.bind]

theorem v_div_eq {F : Type} [DecidableEq F] [Zero F] [Div F] (FLAG : F) (xs : List F)
    (hx : FLAG ∉ xs) (c : F) :
    v_div FLAG (vec FLAG xs) c = .ok (vec FLAG (xs.map (fun x => x / c))) := by
  simp only [v_div, v_len_vec FLAG xs hx, v_make_eq, bind, Except.bind]
  apply forLoop_map FLAG (fun x => x / c) xs
  intro j x hj r
  simp [load_vec FLAG xs j x hj, bind, Except.bind]

/-! ## Accumulating loops -/

theorem v_mag_eq {F : Type} [DecidableEq F] [Zero F] [Add F] [Mul F] (sqrt : F → F) (FLAG : F)
    (xs : List F) (hx : FLAG ∉ xs) :
    v_mag sqrt FLAG (vec FLAG xs) = .ok (sqrt (xs.foldl (fun sum f => sum + f * f) 0)) := by
  have h := forLoop_fold (fun i sum => do
      let f ← load (vec FLAG xs) i
      pure (sum + f * f)) (fun sum f => sum + f * f) xs 0 (0 : F) (by
        intro j x hj t
        simp [load_vec FLAG xs j x hj, bind, Except.bind, pure, Except.pure])
  simp only [bind, Except.bind] at h
  simp only [v_mag, v_len_vec FLAG xs hx, bind, Except.bind, h]
  rfl

theorem v_dot_eq {F : Type} [DecidableEq F] [Zero F] [Add F] [Mul F] (FLAG : F)
    (xs ys : List F) (hx : FLAG ∉ xs) (hy : FLAG ∉ ys) (hlen : xs.length = ys.length) :
    v_dot FLAG (vec FLAG xs) (vec FLAG ys)
      = .ok ((xs.zip ys).foldl (fun sum p => sum + p.1 * p.2) 0) := by
  have h := forLoop_fold (fun i sum => do
      let x ← load (vec FLAG xs) i
      let y ← load (vec FLAG ys) i
      pure (sum + x * y)) (fun sum (p : F × F) => sum + p.1 * p.2) (xs.zip ys) 0 (0 : F) (by
        intro j p hj t
        rw [List.getElem?_zip_eq_some] at hj
        simp [load_vec FLAG xs j p.1 hj.1, load_vec FLAG ys j p.2 hj.2, bind, Except.bind, pure,
          Except.pure])
  simp only [List.length_zip, hlen, Nat.min_self, bind, Except.bind] at h
  simp only [v_dot, v_len_vec FLAG xs hx, v_len_vec FLAG ys hy, bind, Except.bind, hlen, ne_eq,
    not_true_eq_false, if_false, h]

theorem v_dot_unequal {F : Type} [DecidableEq F] [Zero F] [Add F] [Mul F] (FLAG : F)
    (xs ys : List F) (hx : FLAG ∉ xs) (hy : FLAG ∉ ys) (hlen : xs.length ≠ ys.length) :
    v_dot FLAG (vec FLAG xs) (vec FLAG ys)
      = .error (.exitFailure (unequalLengthMessage xs.length ys.length)) := by
  simp only [v_dot, v_len_vec FLAG xs hx, v_len_vec FLAG ys hy, bind, Except.bind, ne_eq, hlen,
    not_false_eq_true, if_true]
  rfl

theorem v_sum_eq {F : Type} [DecidableEq F] [Zero F] [Add F] (FLAG : F)
    (xs : List F) (hx : FLAG ∉ xs) :
    v_sum FLAG (vec FLAG xs) = .ok (xs.foldl (fun sum f => sum + f) 0) := by
  have h := forLoop_fold (fun i sum => do
      let f ← load (vec FLAG xs) i
      pure (sum + f)) (fun sum f => sum + f) xs 0 (0 : F) (by
        intro j x hj t
        simp [load_vec FLAG xs j x hj, bind, Except.bind, pure, Except.pure])
  simp only [bind, Except.bind] at h
  simp only [v_sum, v_len_vec FLAG xs hx, bind, Except.bind, h]

theorem v_mean_eq {F : Type} [DecidableEq F] [Zero F] [Add F] [Div F] [NatCast F] (FLAG : F)
    (xs : List F) (hx : FLAG ∉ xs) :
    v_mean FLAG (vec FLAG xs)
      = .ok (xs.foldl (fun sum f => sum + f) 0 / (xs.length : F)) := by
  simp only [v_mean, v_len_vec FLAG xs hx, v_sum_eq FLAG xs hx, bind, Except.bind]
  rfl

theorem v_std_eq {F : Type} [DecidableEq F] [Zero F] [Add F] [Sub F] [Div F] [NatCast F]
    [Pow F Nat] (sqrt : F → F) (FLAG : F) (xs : List F) (hx : FLAG ∉ xs) :
    v_std sqrt FLAG (vec FLAG xs)
      = .ok (sqrt (xs.foldl (fun sum x =>
          sum + (x - xs.foldl (fun sum f => sum + f) 0 / (xs.length : F)) ^ 2) 0
            / (xs.length : F))) := by
  have h := forLoop_fold (fun i sum => do
      let x ← load (vec FLAG xs) i
      pure (sum + (x - xs.foldl (fun sum f => sum + f) 0 / (xs.length : F)) ^ 2))
      (fun sum x => sum + (x - xs.foldl (fun sum f => sum + f) 0 / (xs.length : F)) ^ 2)
      xs 0 (0 : F) (by
        intro j x hj t
        simp [load_vec FLAG xs j x hj, bind, Except.bind, pure, Except.pure])
  have hassert : assertValidVec (vec FLAG xs) = .ok () := rfl
  simp only [bind, Except.bind] at h
  simp only [v_std, v_len_vec FLAG xs hx, v_mean_eq FLAG xs hx, bind, Except.bind, h, hassert]
  rfl

theorem v_unit_eq {F : Type} [DecidableEq F] [Zero F] [Add F] [Mul F] [Div F] (sqrt : F → F)
    (FLAG : F) (xs : List F) (hx : FLAG ∉ xs) :
    v_unit sqrt FLAG (vec FLAG xs)
      = .ok (vec FLAG (xs.map (fun x => x / sqrt (xs.foldl (fun sum f => sum + f * f) 0)))) := by
  simp only [v_unit, v_len_vec FLAG xs hx, v_mag_eq sqrt FLAG xs hx, v_make_eq,
    v_div_eq FLAG xs hx, bind, Except.bind]
  rfl

/-! ## Transforms -/

theorem v_clamp_eq {F : Type} [DecidableEq F] [Zero F] [LT F]
    [DecidableRel (fun x y : F => x < y)] (FLAG : F) (xs : List F) (hx : FLAG ∉ xs)
    (minV maxV : F) :
    v_clamp FLAG (vec FLAG xs) minV maxV = .ok (vec FLAG (xs.map (clampTo minV maxV))) := by
  simp only [v_clamp, v_len_vec FLAG xs hx, v_make_eq, bind, Except.bind]
  have hassert : assertValidVec (vec FLAG xs) = .ok () := rfl
  simp only [hassert]
  apply forLoop_map FLAG (clampTo minV maxV) xs
  intro j x hj r
  simp only [load_vec FLAG xs j x hj, bind, Except.bind, clampTo]
  split
  · rfl
  · split <;> rfl

theorem minmaxStep_eq {F : Type} [LT F] [DecidableRel (fun x y : F => x < y)] (FLAG : F)
    (xs : List F) (i : Nat) (x : F) (hi : xs[i]? = some x) (s : F × F) :
    minmaxStep (vec FLAG xs) i s = .ok (minmaxUpdate s x) := by
  simp only [minmaxStep, load_vec FLAG xs i x hi, bind, Except.bind, minmaxUpdate, pure,
    Except.pure]
  by_cases h1 : x < s.1 <;> by_cases h2 : x > s.2 <;> simp [h1, h2]

/-- The scan of `v_range` and `v_minmaxscale` over a valid vector: seeded with slot 0, it
folds the slots `1 .. len - 1`. -/
theorem minmax_scan_eq {F : Type} [LT F] [DecidableRel (fun x y : F => x < y)] (FLAG : F)
    (xs : List F) (s : F × F) :
    forLoop (minmaxStep (vec FLAG xs)) (xs.length - 1) 1 s
      = .ok (xs.tail.foldl minmaxUpdate s) := by
  have h := forLoop_fold (minmaxStep (vec FLAG xs)) minmaxUpdate xs.tail 1 s (by
    intro j x hj t
    apply minmaxStep_eq FLAG xs (1 + j) x _ t
    cases xs with
    | nil => simp at hj
    | cons y ys => simpa [Nat.add_comm 1 j] using hj)
  simpa using h

theorem load_vec_zero {F : Type} (FLAG : F) (xs : List F) :
    load (vec FLAG xs) 0 = .ok (xs.headD FLAG) := by
  cases xs <;> simp [load, vec]

theorem v_minmaxscale_eq {F : Type} [DecidableEq F] [Zero F] [Sub F] [Div F] [LT F]
    [DecidableRel (fun x y : F => x < y)] (FLAG : F) (xs : List F) (hx : FLAG ∉ xs) :
    v_minmaxscale FLAG (vec FLAG xs)
      = .ok (vec FLAG (xs.map (fun x =>
          (x - (minmaxOf FLAG xs).1) / ((minmaxOf FLAG xs).2 - (minmaxOf FLAG xs).1)))) := by
  have hassert : assertValidVec (vec FLAG xs) = .ok () := rfl
  simp only [v_minmaxscale, hassert, v_len_vec FLAG xs hx, v_make_eq, load_vec_zero,
    minmax_scan_eq, bind, Except.bind]
  apply forLoop_map FLAG (fun x =>
    (x - (minmaxOf FLAG xs).1) / ((minmaxOf FLAG xs).2 - (minmaxOf FLAG xs).1)) xs
  intro j x hj r
  simp only [load_vec FLAG xs j x hj, minmaxOf]

theorem v_standardize_eq {F : Type} [DecidableEq F] [Zero F] [Add F] [Sub F] [Div F]
    [NatCast F] [Pow F Nat] (sqrt : F → F) (FLAG : F) (xs : List F) (hx : FLAG ∉ xs) :
    ∃ mean std_dev : F, v_mean FLAG (vec FLAG xs) = .ok mean ∧
      v_std sqrt FLAG (vec FLAG xs) = .ok std_dev ∧
      v_standardize sqrt FLAG (vec FLAG xs)
        = .ok (vec FLAG (xs.map (fun x => (x - mean) / std_dev))) := by
  refine ⟨_, _, v_mean_eq FLAG xs hx, v_std_eq sqrt FLAG xs hx, ?_⟩
  have hassert : assertValidVec (vec FLAG xs) = .ok () := rfl
  simp only [v_standardize, hassert, v_len_vec FLAG xs hx, v_make_eq, v_mean_eq FLAG xs hx,
    v_std_eq sqrt FLAG xs hx, bind, Except.bind]
  apply forLoop_map FLAG _ xs
  intro j x hj r
  simp only [load_vec FLAG xs j x hj]

/-! ## Sums over exact arithmetic -/

theorem foldl_add_eq_sum {α F : Type} [AddMonoid F] (g : α → F) (l : List α) :
    ∀ a : F, l.foldl (fun sum x => sum + g x) a = a + (l.map g).sum := by
  induction l with
  | nil => intro a; simp
  | cons x l ih => intro a; simp [ih, add_assoc]

theorem sum_zip_eq_sum_range {F : Type} [Semiring F] (xs : List F) :
    ∀ ys : List F, xs.length = ys.length →
    ((xs.zip ys).map (fun p => p.1 * p.2)).sum
      = ∑ i ∈ Finset.range xs.length, xs.getD i 0 * ys.getD i 0 := by
  induction xs with
  | nil => intro ys _; simp
  | cons x xs ih =>
    intro ys hlen
    cases ys with
    | nil => simp at hlen
    | cons y ys =>
      have hlen2 : xs.length = ys.length := by simpa using hlen
      rw [List.length_cons, Finset.sum_range_succ']
      simp [ih ys hlen2, add_comm]

theorem dot_fold_eq_sum_range {F : Type} [Semiring F] (xs ys : List F)
    (hlen : xs.length = ys.length) :
    (xs.zip ys).foldl (fun sum p => sum + p.1 * p.2) 0
      = ∑ i ∈ Finset.range xs.length, xs.getD i 0 * ys.getD i 0 := by
  rw [foldl_add_eq_sum (fun p : F × F => p.1 * p.2), zero_add, sum_zip_eq_sum_range xs ys hlen]

theorem sq_fold_eq_dot_fold {F : Type} [Zero F] [Add F] [Mul F] (xs : List F) :
    ∀ a : F, xs.foldl (fun sum f => sum + f * f) a
      = (xs.zip xs).foldl (fun sum p => sum + p.1 * p.2) a := by
  induction xs with
  | nil => intro a; rfl
  | cons x xs ih => intro a; simp [ih]

theorem sq_fold_eq_sum (xs : List ℝ) :
    xs.foldl (fun sum f => sum + f * f) 0 = (xs.map (fun x => x * x)).sum := by
  rw [foldl_add_eq_sum (fun x : ℝ => x * x), zero_add]

theorem sq_sum_nonneg (xs : List ℝ) : 0 ≤ (xs.map (fun x => x * x)).sum := by
  apply List.sum_nonneg
  intro y hy
  obtain ⟨x, _, rfl⟩ := List.mem_map.mp hy
  exact mul_self_nonneg x

theorem abs_le_sqrt_sq_sum (xs : List ℝ) (x : ℝ) (hx : x ∈ xs) :
    |x| ≤ Real.sqrt (xs.map (fun x => x * x)).sum := by
  apply Real.abs_le_sqrt
  have hmem : x * x ∈ xs.map (fun x => x * x) := List.mem_map.mpr ⟨x, hx, rfl⟩
  have hnn : ∀ y ∈ xs.map (fun x => x * x), (0 : ℝ) ≤ y := by
    intro y hy
    obtain ⟨z, _, rfl⟩ := List.mem_map.mp hy
    exact mul_self_nonneg z
  have := List.single_le_sum hnn (x * x) hmem
  simpa [sq] using this

/-- No component of `v / |v|` is a number of absolute value above `1`. -/
theorem unit_component_ne (FLAG : ℝ) (hFLAG : 1 < |FLAG|) (xs : List ℝ) :
    FLAG ∉ xs.map (fun x => x / Real.sqrt (xs.foldl (fun sum f => sum + f * f) 0)) := by
  intro hmem
  obtain ⟨x, hx, hxe⟩ := List.mem_map.mp hmem
  rw [sq_fold_eq_sum] at hxe
  have hle := abs_le_sqrt_sq_sum xs x hx
  have hm : 0 ≤ Real.sqrt (xs.map (fun x => x * x)).sum := Real.sqrt_nonneg _
  have habs : |x / Real.sqrt (xs.map (fun x => x * x)).sum| ≤ 1 := by
    rw [abs_div, abs_of_nonneg hm]
    exact div_le_one_of_le₀ hle hm
  rw [hxe] at habs
  linarith

theorem unit_sq_fold (xs : List ℝ) (m : ℝ) (hm : m ≠ 0)
    (hS : m * m = xs.foldl (fun sum f => sum + f * f) 0) :
    (xs.map (fun x => x / m)).foldl (fun sum f => sum + f * f) 0 = 1 := by
  rw [sq_fold_eq_sum] at hS ⊢
  rw [List.map_map]
  have hfun : ((fun x : ℝ => x * x) ∘ fun x => x / m) = fun x => x * x * (m * m)⁻¹ := by
    funext x
    simp only [Function.comp]
    field_simp
  rw [hfun, List.sum_map_mul_right, ← hS]
  field_simp

theorem zip_unit_products (xs : List ℝ) (m : ℝ) :
    (xs.zip (xs.map (fun x => x / m))).map (fun p => p.1 * p.2)
      = xs.map (fun x => x * x * m⁻¹) := by
  induction xs with
  | nil => rfl
  | cons x xs ih =>
    simp only [List.map_cons, List.zip_cons_cons, List.cons.injEq]
    exact ⟨by ring, ih⟩

theorem dot_unit_fold (xs : List ℝ) (m : ℝ) (hm : m ≠ 0)
    (hS : m * m = xs.foldl (fun sum f => sum + f * f) 0) :
    (xs.zip (xs.map (fun x => x / m))).foldl (fun sum p => sum + p.1 * p.2) 0 = m := by
  rw [sq_fold_eq_sum] at hS
  rw [foldl_add_eq_sum (fun p : ℝ × ℝ => p.1 * p.2), zero_add, zip_unit_products,
    List.sum_map_mul_right, ← hS]
  field_simp

/-! ## Claims -/

/-- C1: for every `n`, `v_make(n)` returns a block of `n + 1` slots whose first `n` slots
are zero and whose slot `n` is `VEC_END_FLAG`, and `v_len` of that block is `n`; for `n = 0`
the block is just the terminator.  The macro is taken to differ from `0`. -/
theorem C1_v_make_len {F : Type} [DecidableEq F] [Zero F] (FLAG : F) (hFLAG : FLAG ≠ 0)
    (n : Nat) :
    v_make FLAG n = .ok (some (List.replicate n 0 ++ [FLAG])) ∧
    (v_make FLAG n >>= v_len FLAG) = .ok n ∧
    v_make FLAG 0 = .ok (some [FLAG]) := by
  refine ⟨v_make_eq FLAG n, ?_, by simpa using v_make_eq FLAG 0⟩
  have hz : FLAG ∉ List.replicate n (0 : F) := by
    intro hmem
    exact hFLAG (List.eq_of_mem_replicate hmem)
  have := v_len_vec FLAG (List.replicate n 0) hz
  simpa [v_make_eq, bind, Except.bind, vec] using this

/-- C1 at `n = 3` with the terminator `99999` over the rationals. -/
theorem C1_v_make_len_witness :
    (99999 : ℚ) ≠ 0 ∧
    (v_make (99999 : ℚ) 3 = .ok (some [0, 0, 0, 99999]) ∧
     (v_make (99999 : ℚ) 3 >>= v_len 99999) = .ok 3 ∧
     v_make (99999 : ℚ) 0 = .ok (some [99999])) :=
  ⟨by norm_num, by simpa [List.replicate] using C1_v_make_len (99999 : ℚ) (by norm_num) 3⟩

theorem returnsBlock_of_eq {F : Type} [DecidableEq F] (FLAG : F) (n : Nat)
    (r : Except Fault (VecPtr F)) (zs : List F) (hr : r = .ok (vec FLAG zs))
    (hlen : zs.length = n) : ReturnsBlock FLAG n r := by
  refine ⟨zs, hr, hlen, ?_⟩
  subst hr
  have h := v_len_block FLAG zs
  simp only [bind, Except.bind, h, Except.ok.injEq, ← hlen]
  exact takeWhile_length_eq_iff FLAG zs

/-- C2, counterexample: with the terminator `99999`, `v_fill(1, 99999)` returns the block
`[99999, 99999]`, whose `v_len` is `0` and not `1`; and `v_add` of the valid vectors `[1]`
and `[99998]` returns the same block.  Whatever the terminator is, `v_fill` does not keep
`v_len` for every scalar. -/
theorem C2_validity_counterexample :
    v_fill (99999 : ℚ) 1 99999 = .ok (some [99999, 99999]) ∧
    (v_fill (99999 : ℚ) 1 99999 >>= v_len 99999) = .ok 0 ∧
    v_len (99999 : ℚ) (some [1, 99999]) = .ok 1 ∧
    v_len (99999 : ℚ) (some [99998, 99999]) = .ok 1 ∧
    v_add (99999 : ℚ) (some [1, 99999]) (some [99998, 99999]) = .ok (some [99999, 99999]) ∧
    (v_add (99999 : ℚ) (some [1, 99999]) (some [99998, 99999]) >>= v_len 99999) = .ok 0 ∧
    ¬ ∃ FLAG : ℚ, ∀ (n : Nat) (s : ℚ), (v_fill FLAG n s >>= v_len FLAG) = .ok n := by
  have hfill : v_fill (99999 : ℚ) 1 99999 = .ok (some [99999, 99999]) := by
    simpa [vec] using v_fill_eq (99999 : ℚ) 1 99999
  have hadd : v_add (99999 : ℚ) (some [1, 99999]) (some [99998, 99999])
      = .ok (some [99999, 99999]) := by
    have h := v_add_eq (99999 : ℚ) [1] [99998] (by norm_num) (by norm_num) rfl
    norm_num [vec] at h
    exact h
  have hlen0 : v_len (99999 : ℚ) (some [99999, 99999]) = .ok 0 := by
    simp [v_len, v_len.scan]
  refine ⟨hfill, ?_, ?_, ?_, hadd, ?_, ?_⟩
  · rw [hfill]; exact hlen0
  · simpa [vec] using v_len_vec (99999 : ℚ) [1] (by norm_num)
  · simpa [vec] using v_len_vec (99999 : ℚ) [99998] (by norm_num)
  · rw [hadd]; exact hlen0
  · rintro ⟨FLAG, h⟩
    have h1 := h 1 FLAG
    rw [v_fill_eq] at h1
    have h2 : v_len FLAG (vec FLAG (List.replicate 1 FLAG)) = .ok 0 := by
      simp [v_len, vec, v_len.scan]
    simp only [bind, Except.bind] at h1
    rw [h2] at h1
    cases h1

/-- C2, amended: on valid inputs each of `v_fill`, `v_add`, `v_sub`, `v_mul`, `v_div`,
`v_unit`, `v_clamp`, `v_minmaxscale` and `v_standardize` returns a block of `n + 1` slots
with the terminator in slot `n`; the block is a valid vector, with `v_len` equal to `n`,
if and only if none of the `n` computed elements equals `VEC_END_FLAG`. -/
theorem C2_validity_amended {F : Type} [DecidableEq F] [Zero F] [Add F] [Sub F] [Mul F] [Div F]
    [NatCast F] [Pow F Nat] [LT F] [DecidableRel (fun x y : F => x < y)] (sqrt : F → F)
    (FLAG : F) (xs ys : List F) (hx : FLAG ∉ xs) (hy : FLAG ∉ ys)
    (hlen : xs.length = ys.length) (n : Nat) (s c minV maxV : F) :
    ReturnsBlock FLAG n (v_fill FLAG n s) ∧
    ReturnsBlock FLAG xs.length (v_add FLAG (vec FLAG xs) (vec FLAG ys)) ∧
    ReturnsBlock FLAG xs.length (v_sub FLAG (vec FLAG xs) (vec FLAG ys)) ∧
    ReturnsBlock FLAG xs.length (v_mul FLAG (vec FLAG xs) c) ∧
    ReturnsBlock FLAG xs.length (v_div FLAG (vec FLAG xs) c) ∧
    ReturnsBlock FLAG xs.length (v_unit sqrt FLAG (vec FLAG xs)) ∧
    ReturnsBlock FLAG xs.length (v_clamp FLAG (vec FLAG xs) minV maxV) ∧
    ReturnsBlock FLAG xs.length (v_minmaxscale FLAG (vec FLAG xs)) ∧
    ReturnsBlock FLAG xs.length (v_standardize sqrt FLAG (vec FLAG xs)) := by
  refine ⟨?_, ?_, ?_, ?_, ?_, ?_, ?_, ?_, ?_⟩
  · exact returnsBlock_of_eq FLAG n _ _ (v_fill_eq FLAG n s) (by simp)
  · exact returnsBlock_of_eq FLAG _ _ _ (v_add_eq FLAG xs ys hx hy hlen) (by simp [hlen])
  · exact returnsBlock_of_eq FLAG _ _ _ (v_sub_eq FLAG xs ys hx hy hlen) (by simp [hlen])
  · exact returnsBlock_of_eq FLAG _ _ _ (v_mul_eq FLAG xs hx c) (by simp)
  · exact returnsBlock_of_eq FLAG _ _ _ (v_div_eq FLAG xs hx c) (by simp)
  · exact returnsBlock_of_eq FLAG _ _ _ (v_unit_eq sqrt FLAG xs hx) (by simp)
  · exact returnsBlock_of_eq FLAG _ _ _ (v_clamp_eq FLAG xs hx minV maxV) (by simp)
  · exact returnsBlock_of_eq FLAG _ _ _ (v_minmaxscale_eq FLAG xs hx) (by simp)
  · obtain ⟨mean, std_dev, _, _, h⟩ := v_standardize_eq sqrt FLAG xs hx
    exact returnsBlock_of_eq FLAG _ _ _ h (by simp)

/-- C2, amended, at `a = [1, 2, 3]`, `b = [4, 5, 6]` with the terminator `99999` over the reals. -/
theorem C2_validity_amended_witness :
    (99999 : ℝ) ∉ [1, 2, 3] ∧ (99999 : ℝ) ∉ [4, 5, 6] ∧
    [(1 : ℝ), 2, 3].length = [(4 : ℝ), 5, 6].length ∧
    ReturnsBlock (99999 : ℝ) 3 (v_add 99999 (vec 99999 [1, 2, 3]) (vec 99999 [4, 5, 6])) ∧
    ReturnsBlock (99999 : ℝ) 3 (v_unit Real.sqrt 99999 (vec 99999 [1, 2, 3])) :=
  ⟨by norm_num, by norm_num, rfl,
    (C2_validity_amended Real.sqrt (99999 : ℝ) [1, 2, 3] [4, 5, 6] (by norm_num) (by norm_num)
      rfl 3 0 2 0 1).2.1,
    (C2_validity_amended Real.sqrt (99999 : ℝ) [1, 2, 3] [4, 5, 6] (by norm_num) (by norm_num)
      rfl 3 0 2 0 1).2.2.2.2.2.1⟩

/-- C3: for valid vectors `a` and `b` of equal length `n`, `v_add(a, b)` returns the block
whose slot `i < n` is `a[i] + b[i]` and whose slot `n` is the terminator, and `v_sub(a, b)`
the block whose slot `i < n` is `a[i] - b[i]` and whose slot `n` is the terminator. -/
theorem C3_add_sub_elementwise {F : Type} [DecidableEq F] [Zero F] [Add F] [Sub F] (FLAG : F)
    (xs ys : List F) (hx : FLAG ∉ xs) (hy : FLAG ∉ ys) (hlen : xs.length = ys.length) :
    v_add FLAG (some (xs ++ [FLAG])) (some (ys ++ [FLAG]))
      = .ok (some (List.zipWith (fun x y => x + y) xs ys ++ [FLAG])) ∧
    v_sub FLAG (some (xs ++ [FLAG])) (some (ys ++ [FLAG]))
      = .ok (some (List.zipWith (fun x y => x - y) xs ys ++ [FLAG])) ∧
    (List.zipWith (fun x y => x + y) xs ys).length = xs.length ∧
    (List.zipWith (fun x y => x - y) xs ys).length = xs.length :=
  ⟨v_add_eq FLAG xs ys hx hy hlen, v_sub_eq FLAG xs ys hx hy hlen, by simp [hlen],
    by simp [hlen]⟩

/-- C3 at `a = [1, 2, 3]`, `b = [4, 5, 6]`: `v_add` returns `[5, 7, 9]`. -/
theorem C3_add_sub_elementwise_witness :
    (99999 : ℚ) ∉ [1, 2, 3] ∧ (99999 : ℚ) ∉ [4, 5, 6] ∧
    v_add (99999 : ℚ) (some [1, 2, 3, 99999]) (some [4, 5, 6, 99999])
      = .ok (some [5, 7, 9, 99999]) ∧
    v_sub (99999 : ℚ) (some [1, 2, 3, 99999]) (some [4, 5, 6, 99999])
      = .ok (some [-3, -3, -3, 99999]) := by
  have h := C3_add_sub_elementwise (99999 : ℚ) [1, 2, 3] [4, 5, 6] (by norm_num) (by norm_num)
    rfl
  norm_num at h
  exact ⟨by norm_num, by norm_num, h.1, h.2⟩

/-- C4: on valid vectors `v_add`, `v_sub` and `v_dot` do not return exactly when the lengths
differ; they then exit with the diagnostic
`Attempting to add vectors of unequal length: <v_len(a)> - <v_len(b)>` (followed by a
newline in `v_add` and `v_sub`, by nothing in `v_dot`) and produce no result.  When the
lengths are equal each of them returns a result. -/
theorem C4_length_mismatch {F : Type} [DecidableEq F] [Zero F] [Add F] [Sub F] [Mul F]
    (FLAG : F) (xs ys : List F) (hx : FLAG ∉ xs) (hy : FLAG ∉ ys) :
    v_len FLAG (vec FLAG xs) = .ok xs.length ∧ v_len FLAG (vec FLAG ys) = .ok ys.length ∧
    (xs.length ≠ ys.length →
      v_add FLAG (vec FLAG xs) (vec FLAG ys)
        = .error (.exitFailure (unequalLengthMessage xs.length ys.length ++ "\n")) ∧
      v_sub FLAG (vec FLAG xs) (vec FLAG ys)
        = .error (.exitFailure (unequalLengthMessage xs.length ys.length ++ "\n")) ∧
      v_dot FLAG (vec FLAG xs) (vec FLAG ys)
        = .error (.exitFailure (unequalLengthMessage xs.length ys.length))) ∧
    (xs.length = ys.length →
      (∃ r, v_add FLAG (vec FLAG xs) (vec FLAG ys) = .ok r) ∧
      (∃ r, v_sub FLAG (vec FLAG xs) (vec FLAG ys) = .ok r) ∧
      (∃ d, v_dot FLAG (vec FLAG xs) (vec FLAG ys) = .ok d)) := by
  refine ⟨v_len_vec FLAG xs hx, v_len_vec FLAG ys hy, ?_, ?_⟩
  · intro hne
    refine ⟨?_, ?_, v_dot_unequal FLAG xs ys hx hy hne⟩
    · simp only [v_add, assertValidOperation_eq FLAG xs ys hx hy, bind, Except.bind, hne,
        ne_eq, not_false_eq_true, if_true]
    · simp only [v_sub, assertValidOperation_eq FLAG xs ys hx hy, bind, Except.bind, hne,
        ne_eq, not_false_eq_true, if_true]
  · intro heq
    exact ⟨⟨_, v_add_eq FLAG xs ys hx hy heq⟩, ⟨_, v_sub_eq FLAG xs ys hx hy heq⟩,
      ⟨_, v_dot_eq FLAG xs ys hx hy heq⟩⟩

/-- C4 at `a = [1, 2, 3]`, `b = [4, 5]`: the diagnostic carries `3 - 2`. -/
theorem C4_length_mismatch_witness :
    (99999 : ℚ) ∉ [1, 2, 3] ∧ (99999 : ℚ) ∉ [4, 5] ∧
    v_add (99999 : ℚ) (some [1, 2, 3, 99999]) (some [4, 5, 99999])
      = .error (.exitFailure "Attempting to add vectors of unequal length: 3 - 2\n") ∧
    v_dot (99999 : ℚ) (some [1, 2, 3, 99999]) (some [4, 5, 99999])
      = .error (.exitFailure "Attempting to add vectors of unequal length: 3 - 2") := by
  have h := (C4_length_mismatch (99999 : ℚ) [1, 2, 3] [4, 5] (by norm_num)
    (by norm_num)).2.2.1 (by decide)
  have hm : unequalLengthMessage 3 2 = "Attempting to add vectors of unequal length: 3 - 2" := by
    decide
  simp only [vec, List.length_cons, List.length_nil, List.cons_append, List.nil_append,
    Nat.zero_add, Nat.reduceAdd, hm] at h
  exact ⟨by norm_num, by norm_num, h.1, h.2.2⟩

/-- C5: for every `n`, `v_ones(n)` returns a block whose `n` elements are all `1.0`, and
`v_len` of it is `n`.  The macro is taken to differ from `1.0`. -/
theorem C5_v_ones {F : Type} [DecidableEq F] [Zero F] [One F] (FLAG : F) (hFLAG : FLAG ≠ 1)
    (n : Nat) :
    v_ones FLAG n = .ok (some (List.replicate n 1 ++ [FLAG])) ∧
    (v_ones FLAG n >>= v_len FLAG) = .ok n := by
  have hz : FLAG ∉ List.replicate n (1 : F) := by
    intro hmem
    exact hFLAG (List.eq_of_mem_replicate hmem)
  have h := v_len_vec FLAG (List.replicate n 1) hz
  refine ⟨v_fill_eq FLAG n 1, ?_⟩
  simpa [v_ones, v_fill_eq, bind, Except.bind] using h

/-- C5 at `n = 3` with the terminator `99999` over the rationals. -/
theorem C5_v_ones_witness :
    (99999 : ℚ) ≠ 1 ∧
    v_ones (99999 : ℚ) 3 = .ok (some [1, 1, 1, 99999]) ∧
    (v_ones (99999 : ℚ) 3 >>= v_len 99999) = .ok 3 :=
  ⟨by norm_num, by simpa [List.replicate] using C5_v_ones (99999 : ℚ) (by norm_num) 3⟩

/-- C6: for a valid vector `a` of length `n` and every scalar `c`, zero included, `v_mul(a, c)`
returns the block whose slot `i < n` is `a[i] * c` and whose slot `n` is the terminator, and
`v_div(a, c)` the block whose slot `i < n` is `a[i] / c` and whose slot `n` is the terminator. -/
theorem C6_mul_div_elementwise {F : Type} [DecidableEq F] [Zero F] [Mul F] [Div F] (FLAG : F)
    (xs : List F) (hx : FLAG ∉ xs) (c : F) :
    v_mul FLAG (some (xs ++ [FLAG])) c = .ok (some (xs.map (fun x => x * c) ++ [FLAG])) ∧
    v_div FLAG (some (xs ++ [FLAG])) c = .ok (some (xs.map (fun x => x / c) ++ [FLAG])) ∧
    v_mul FLAG (some (xs ++ [FLAG])) 0 = .ok (some (xs.map (fun x => x * 0) ++ [FLAG])) ∧
    v_div FLAG (some (xs ++ [FLAG])) 0 = .ok (some (xs.map (fun x => x / 0) ++ [FLAG])) :=
  ⟨v_mul_eq FLAG xs hx c, v_div_eq FLAG xs hx c, v_mul_eq FLAG xs hx 0, v_div_eq FLAG xs hx 0⟩

/-- C6 at `a = [1, 2, 3]`, `c = 2`. -/
theorem C6_mul_div_elementwise_witness :
    (99999 : ℚ) ∉ [1, 2, 3] ∧
    v_mul (99999 : ℚ) (some [1, 2, 3, 99999]) 2 = .ok (some [2, 4, 6, 99999]) ∧
    v_div (99999 : ℚ) (some [1, 2, 3, 99999]) 2 = .ok (some [1 / 2, 1, 3 / 2, 99999]) := by
  have h := C6_mul_div_elementwise (99999 : ℚ) [1, 2, 3] (by norm_num) 2
  norm_num at h
  exact ⟨by norm_num, h.1, h.2.1⟩

/-- C7: over the reals, for valid vectors `a` and `b` of equal length `n`, `v_dot(a, b)` is
the sum over `i < n` of `a[i] * b[i]`, and `v_mag(a)` is the square root of the sum of the
squares of the elements of `a`, that is the square root of `v_dot(a, a)`; on the empty
vector `v_dot` and `v_mag` are `0`. -/
theorem C7_dot_mag (FLAG : ℝ) (xs ys : List ℝ) (hx : FLAG ∉ xs) (hy : FLAG ∉ ys)
    (hlen : xs.length = ys.length) :
    v_dot FLAG (vec FLAG xs) (vec FLAG ys)
      = .ok (∑ i ∈ Finset.range xs.length, xs.getD i 0 * ys.getD i 0) ∧
    v_mag Real.sqrt FLAG (vec FLAG xs)
      = .ok (Real.sqrt (∑ i ∈ Finset.range xs.length, xs.getD i 0 * xs.getD i 0)) ∧
    v_mag Real.sqrt FLAG (vec FLAG xs)
      = (v_dot FLAG (vec FLAG xs) (vec FLAG xs) >>= fun d => .ok (Real.sqrt d)) ∧
    v_dot FLAG (vec FLAG []) (vec FLAG []) = .ok 0 ∧
    v_mag Real.sqrt FLAG (vec FLAG []) = .ok 0 := by
  have hdot := v_dot_eq FLAG xs ys hx hy hlen
  have hself := v_dot_eq FLAG xs xs hx hx rfl
  have hmag := v_mag_eq Real.sqrt FLAG xs hx
  rw [sq_fold_eq_dot_fold xs 0] at hmag
  refine ⟨?_, ?_, ?_, ?_, ?_⟩
  · rw [hdot, dot_fold_eq_sum_range xs ys hlen]
  · rw [hmag, dot_fold_eq_sum_range xs xs rfl]
  · rw [hmag, hself]; rfl
  · simpa using v_dot_eq FLAG [] [] (by simp) (by simp) rfl
  · simpa using v_mag_eq Real.sqrt FLAG [] (by simp)

/-- C7 at `a = [1, 2, 3]`, `b = [4, 5, 6]`: the dot product is `32`, the magnitude of `a` is `√14`. -/
theorem C7_dot_mag_witness :
    (99999 : ℝ) ∉ [1, 2, 3] ∧ (99999 : ℝ) ∉ [4, 5, 6] ∧
    v_dot (99999 : ℝ) (some [1, 2, 3, 99999]) (some [4, 5, 6, 99999]) = .ok 32 ∧
    v_mag Real.sqrt (99999 : ℝ) (some [1, 2, 3, 99999]) = .ok (Real.sqrt 14) := by
  have h := C7_dot_mag (99999 : ℝ) [1, 2, 3] [4, 5, 6] (by norm_num) (by norm_num) rfl
  norm_num [vec, Finset.sum_range_succ] at h
  exact ⟨by norm_num, by norm_num, h.1, h.2.1⟩

/-- The magnitude `m` of a valid real vector satisfies `m * m = Σ v[i]²`. -/
theorem mag_mul_self (xs : List ℝ) :
    Real.sqrt (xs.foldl (fun sum f => sum + f * f) 0)
        * Real.sqrt (xs.foldl (fun sum f => sum + f * f) 0)
      = xs.foldl (fun sum f => sum + f * f) 0 := by
  apply Real.mul_self_sqrt
  rw [sq_fold_eq_sum]
  exact sq_sum_nonneg xs

/-- C8: over the reals, for every valid vector `v` with nonzero magnitude,
`v_mag(v_unit(v))` is `1`, where `v_unit(v)` is `v_div(v, v_mag(v))`.  The macro is taken
to be of absolute value above `1`, so that no component of a unit vector equals it. -/
theorem C8_unit_magnitude (FLAG : ℝ) (hFLAG : 1 < |FLAG|) (xs : List ℝ) (hx : FLAG ∉ xs)
    (hmag : v_mag Real.sqrt FLAG (vec FLAG xs) ≠ .ok 0) :
    (v_unit Real.sqrt FLAG (vec FLAG xs) >>= v_mag Real.sqrt FLAG) = .ok 1 ∧
    v_unit Real.sqrt FLAG (vec FLAG xs)
      = (v_mag Real.sqrt FLAG (vec FLAG xs) >>= v_div FLAG (vec FLAG xs)) := by
  have hm : Real.sqrt (xs.foldl (fun sum f => sum + f * f) 0) ≠ 0 := by
    intro h0
    apply hmag
    rw [v_mag_eq Real.sqrt FLAG xs hx, h0]
  have hu := unit_component_ne FLAG hFLAG xs
  constructor
  · rw [v_unit_eq Real.sqrt FLAG xs hx]
    simp only [bind, Except.bind]
    rw [v_mag_eq Real.sqrt FLAG _ hu, unit_sq_fold xs _ hm (mag_mul_self xs), Real.sqrt_one]
  · rw [v_unit_eq Real.sqrt FLAG xs hx, v_mag_eq Real.sqrt FLAG xs hx]
    simp only [bind, Except.bind]
    rw [v_div_eq FLAG xs hx]

/-- C8 at `v = [3, 4]`, of magnitude `5`. -/
theorem C8_unit_magnitude_witness :
    1 < |(99999 : ℝ)| ∧ (99999 : ℝ) ∉ [3, 4] ∧
    v_mag Real.sqrt (99999 : ℝ) (vec 99999 [3, 4]) ≠ .ok 0 ∧
    (v_unit Real.sqrt (99999 : ℝ) (vec 99999 [3, 4]) >>= v_mag Real.sqrt 99999) = .ok 1 := by
  have h1 : 1 < |(99999 : ℝ)| := by rw [abs_of_pos] <;> norm_num
  have h2 : (99999 : ℝ) ∉ [3, 4] := by norm_num
  have h3 : v_mag Real.sqrt (99999 : ℝ) (vec 99999 [3, 4]) ≠ .ok 0 := by
    rw [v_mag_eq Real.sqrt (99999 : ℝ) [3, 4] h2]
    simp only [List.foldl, ne_eq, Except.ok.injEq]
    rw [Real.sqrt_eq_zero']
    norm_num
  exact ⟨h1, h2, h3, (C8_unit_magnitude (99999 : ℝ) h1 [3, 4] h2 h3).1⟩

/-- C9: over the reals, for every valid vector `a` with nonzero magnitude,
`v_dot(a, v_unit(a))` is `v_mag(a)`, and so is `v_project(a, a)`, which is
`v_dot(a, v_unit(a))`.  The macro is taken to be of absolute value above `1`, so that no
component of a unit vector equals it. -/
theorem C9_dot_unit (FLAG : ℝ) (hFLAG : 1 < |FLAG|) (xs : List ℝ) (hx : FLAG ∉ xs)
    (hmag : v_mag Real.sqrt FLAG (vec FLAG xs) ≠ .ok 0) :
    (v_unit Real.sqrt FLAG (vec FLAG xs) >>= v_dot FLAG (vec FLAG xs))
      = v_mag Real.sqrt FLAG (vec FLAG xs) ∧
    v_project Real.sqrt FLAG (vec FLAG xs) (vec FLAG xs) = v_mag Real.sqrt FLAG (vec FLAG xs) ∧
    v_project Real.sqrt FLAG (vec FLAG xs) (vec FLAG xs)
      = (v_unit Real.sqrt FLAG (vec FLAG xs) >>= v_dot FLAG (vec FLAG xs)) := by
  have hm : Real.sqrt (xs.foldl (fun sum f => sum + f * f) 0) ≠ 0 := by
    intro h0
    apply hmag
    rw [v_mag_eq Real.sqrt FLAG xs hx, h0]
  have hu := unit_component_ne FLAG hFLAG xs
  have hdot : (v_unit Real.sqrt FLAG (vec FLAG xs) >>= v_dot FLAG (vec FLAG xs))
      = v_mag Real.sqrt FLAG (vec FLAG xs) := by
    rw [v_unit_eq Real.sqrt FLAG xs hx, v_mag_eq Real.sqrt FLAG xs hx]
    simp only [bind, Except.bind]
    rw [v_dot_eq FLAG xs _ hx hu (by simp), dot_unit_fold xs _ hm (mag_mul_self xs)]
  have hproj : v_project Real.sqrt FLAG (vec FLAG xs) (vec FLAG xs)
      = (v_unit Real.sqrt FLAG (vec FLAG xs) >>= v_dot FLAG (vec FLAG xs)) := by
    simp only [v_project, bind, Except.bind]
    cases v_unit Real.sqrt FLAG (vec FLAG xs) with
    | error e => rfl
    | ok u =>
      simp only []
      cases v_dot FLAG (vec FLAG xs) u <;> rfl
  exact ⟨hdot, hproj.trans hdot, hproj⟩

/-- C9 at `a = [3, 4]`: the projection of `a` on itself is `5`. -/
theorem C9_dot_unit_witness :
    1 < |(99999 : ℝ)| ∧ (99999 : ℝ) ∉ [3, 4] ∧
    v_mag Real.sqrt (99999 : ℝ) (vec 99999 [3, 4]) ≠ .ok 0 ∧
    v_mag Real.sqrt (99999 : ℝ) (vec 99999 [3, 4]) = .ok 5 ∧
    v_project Real.sqrt (99999 : ℝ) (vec 99999 [3, 4]) (vec 99999 [3, 4]) = .ok 5 := by
  have h1 : 1 < |(99999 : ℝ)| := by rw [abs_of_pos] <;> norm_num
  have h2 : (99999 : ℝ) ∉ [3, 4] := by norm_num
  have h5 : v_mag Real.sqrt (99999 : ℝ) (vec 99999 [3, 4]) = .ok 5 := by
    rw [v_mag_eq Real.sqrt (99999 : ℝ) [3, 4] h2]
    simp only [List.foldl, Except.ok.injEq]
    rw [show (0 : ℝ) + 3 * 3 + 4 * 4 = 5 ^ 2 by norm_num]
    exact Real.sqrt_sq (by norm_num)
  have h3 : v_mag Real.sqrt (99999 : ℝ) (vec 99999 [3, 4]) ≠ .ok 0 := by
    rw [h5]
    simp
  exact ⟨h1, h2, h3, h5, h5 ▸ (C9_dot_unit (99999 : ℝ) h1 [3, 4] h2 h3).2.1⟩

theorem sum_fold_replicate {F : Type} [Semiring F] (n : Nat) (c : F) :
    (List.replicate n c).foldl (fun sum f => sum + f) 0 = (n : F) * c := by
  rw [foldl_add_eq_sum (fun x : F => x), zero_add, List.map_id', List.sum_replicate, nsmul_eq_mul]

/-- C10, counterexample: with the terminator `99999`, `v_fill(2, 99999)` returns the block
`[99999, 99999, 99999]`, on which `v_len` is `0` and `v_sum` is `0`, so that `v_mean` divides
`0` by the length `0` and does not return `99999`. -/
theorem C10_mean_fill_counterexample :
    v_fill (99999 : ℚ) 2 99999 = .ok (some [99999, 99999, 99999]) ∧
    v_len (99999 : ℚ) (some [99999, 99999, 99999]) = .ok 0 ∧
    v_sum (99999 : ℚ) (some [99999, 99999, 99999]) = .ok 0 ∧
    (v_fill (99999 : ℚ) 2 99999 >>= v_mean 99999) = .ok ((0 : ℚ) / ((0 : Nat) : ℚ)) ∧
    (v_fill (99999 : ℚ) 2 99999 >>= v_mean 99999) ≠ .ok 99999 := by
  have hfill : v_fill (99999 : ℚ) 2 99999 = .ok (some [99999, 99999, 99999]) := by
    simpa [vec, List.replicate] using v_fill_eq (99999 : ℚ) 2 99999
  have hlen : v_len (99999 : ℚ) (some [99999, 99999, 99999]) = .ok 0 := by
    simp [v_len, v_len.scan]
  have hsum : v_sum (99999 : ℚ) (some [99999, 99999, 99999]) = .ok 0 := by
    simp only [v_sum, hlen, bind, Except.bind, forLoop]
  have hmean : (v_fill (99999 : ℚ) 2 99999 >>= v_mean 99999)
      = .ok ((0 : ℚ) / ((0 : Nat) : ℚ)) := by
    rw [hfill]
    simp only [bind, Except.bind, v_mean, assertValidVec, hlen, hsum]
    rfl
  refine ⟨hfill, hlen, hsum, hmean, ?_⟩
  rw [hmean]
  norm_num

/-- C10, amended: in exact arithmetic, for every `n ≥ 1` and every scalar `c` other than
`VEC_END_FLAG`, `v_mean(v_fill(n, c))` is `c`, where `v_mean(v)` is `v_sum(v)` divided by
`v_len(v)`. -/
theorem C10_mean_fill_amended {F : Type} [Field F] [CharZero F] [DecidableEq F] (FLAG c : F)
    (hc : c ≠ FLAG) (n : Nat) (hn : 1 ≤ n) :
    (v_fill FLAG n c >>= v_mean FLAG) = .ok c ∧
    (v_fill FLAG n c >>= v_len FLAG) = .ok n ∧
    (v_fill FLAG n c >>= v_sum FLAG) = .ok ((n : F) * c) ∧
    (v_fill FLAG n c >>= v_mean FLAG) = .ok ((n : F) * c / (n : F)) := by
  have hz : FLAG ∉ List.replicate n c := by
    intro hmem
    exact hc (List.eq_of_mem_replicate hmem).symm
  have hn0 : (n : F) ≠ 0 := by
    have : n ≠ 0 := by omega
    exact_mod_cast this
  have hmean : (v_fill FLAG n c >>= v_mean FLAG) = .ok ((n : F) * c / (n : F)) := by
    rw [v_fill_eq]
    simp only [bind, Except.bind]
    rw [v_mean_eq FLAG _ hz, sum_fold_replicate, List.length_replicate]
  refine ⟨?_, ?_, ?_, hmean⟩
  · rw [hmean, mul_div_cancel_left₀ c hn0]
  · rw [v_fill_eq]
    simp only [bind, Except.bind]
    rw [v_len_vec FLAG _ hz, List.length_replicate]
  · rw [v_fill_eq]
    simp only [bind, Except.bind]
    rw [v_sum_eq FLAG _ hz, sum_fold_replicate]

/-- C10, amended, at `n = 4`, `c = 5 / 2`. -/
theorem C10_mean_fill_amended_witness :
    (5 / 2 : ℚ) ≠ 99999 ∧ 1 ≤ 4 ∧ (v_fill (99999 : ℚ) 4 (5 / 2) >>= v_mean 99999) = .ok (5 / 2) :=
  ⟨by norm_num, by norm_num,
    (C10_mean_fill_amended (99999 : ℚ) (5 / 2) (by norm_num) 4 (by norm_num)).1⟩

/-! ## Constant vectors -/

theorem sq_dev_fold_replicate (n : Nat) (c m : ℝ) (hm : m = c) :
    (List.replicate n c).foldl (fun sum x => sum + (x - m) ^ 2) 0 = 0 := by
  subst hm
  rw [foldl_add_eq_sum (fun x : ℝ => (x - m) ^ 2), zero_add]
  simp

/-- C11, counterexample: with the terminator `99999`, `v_fill(2, 99999)` returns the block
`[99999, 99999, 99999]`, on which `v_len` is `0`; `v_mean` is `0 / 0`, the loop of `v_std`
runs no pass, and `v_std` returns `sqrt(0 / 0)`, which is NaN and not `0`. -/
theorem C11_std_fill_counterexample :
    v_fill (NanRat.fin 99999) 2 (NanRat.fin 99999)
      = .ok (some [NanRat.fin 99999, NanRat.fin 99999, NanRat.fin 99999]) ∧
    v_len (NanRat.fin 99999) (some [NanRat.fin 99999, NanRat.fin 99999, NanRat.fin 99999])
      = .ok 0 ∧
    (v_fill (NanRat.fin 99999) 2 (NanRat.fin 99999) >>= v_mean (NanRat.fin 99999))
      = .ok NanRat.nan ∧
    (v_fill (NanRat.fin 99999) 2 (NanRat.fin 99999) >>= v_std NanRat.sqrt (NanRat.fin 99999))
      = .ok NanRat.nan ∧
    (v_fill (NanRat.fin 99999) 2 (NanRat.fin 99999) >>= v_std NanRat.sqrt (NanRat.fin 99999))
      ≠ .ok 0 := by
  have hfill : v_fill (NanRat.fin 99999) 2 (NanRat.fin 99999)
      = .ok (some [NanRat.fin 99999, NanRat.fin 99999, NanRat.fin 99999]) := by
    simpa [vec, List.replicate] using v_fill_eq (NanRat.fin 99999) 2 (NanRat.fin 99999)
  have hlen : v_len (NanRat.fin 99999)
      (some [NanRat.fin 99999, NanRat.fin 99999, NanRat.fin 99999]) = .ok 0 := by
    simp [v_len, v_len.scan]
  have hdiv : (0 : NanRat) / ((0 : Nat) : NanRat) = NanRat.nan := by
    show NanRat.div (NanRat.fin 0) (NanRat.fin ((0 : Nat) : ℚ)) = NanRat.nan
    simp [NanRat.div]
  have hmean : v_mean (NanRat.fin 99999)
      (some [NanRat.fin 99999, NanRat.fin 99999, NanRat.fin 99999]) = .ok NanRat.nan := by
    simp only [v_mean, v_sum, assertValidVec, hlen, bind, Except.bind, forLoop, pure,
      Except.pure, hdiv]
  have hstd : v_std NanRat.sqrt (NanRat.fin 99999)
      (some [NanRat.fin 99999, NanRat.fin 99999, NanRat.fin 99999]) = .ok NanRat.nan := by
    simp only [v_std, assertValidVec, hlen, hmean, bind, Except.bind, forLoop, pure,
      Except.pure, hdiv]
    rfl
  refine ⟨hfill, hlen, ?_, ?_, ?_⟩
  · rw [hfill]; exact hmean
  · rw [hfill]; exact hstd
  · rw [hfill]
    simp only [bind, Except.bind, hstd]
    intro h
    cases h

/-- C11, amended: in exact arithmetic, for every `n ≥ 1` and every scalar `c` other than
`VEC_END_FLAG`, `v_std(v_fill(n, c))` is `0`. -/
theorem C11_std_fill_amended (FLAG c : ℝ) (hc : c ≠ FLAG) (n : Nat) (hn : 1 ≤ n) :
    (v_fill FLAG n c >>= v_std Real.sqrt FLAG) = .ok 0 := by
  have hz : FLAG ∉ List.replicate n c := by
    intro hmem
    exact hc (List.eq_of_mem_replicate hmem).symm
  have hn0 : (n : ℝ) ≠ 0 := by
    have : n ≠ 0 := by omega
    exact_mod_cast this
  rw [v_fill_eq]
  simp only [bind, Except.bind]
  rw [v_std_eq Real.sqrt FLAG _ hz, List.length_replicate,
    sq_dev_fold_replicate n c _ (by rw [sum_fold_replicate, mul_div_cancel_left₀ c hn0])]
  simp

/-- C11, amended, at `n = 4`, `c = 5 / 2` with the terminator `99999`. -/
theorem C11_std_fill_amended_witness :
    (5 / 2 : ℝ) ≠ 99999 ∧ 1 ≤ 4 ∧
    (v_fill (99999 : ℝ) 4 (5 / 2) >>= v_std Real.sqrt 99999) = .ok 0 :=
  ⟨by norm_num, by norm_num,
    C11_std_fill_amended (99999 : ℝ) (5 / 2) (by norm_num) 4 (by norm_num)⟩

/-! ## Minimum and maximum scan -/

theorem v_range_eq {F : Type} [DecidableEq F] [Sub F] [LT F]
    [DecidableRel (fun x y : F => x < y)] (FLAG : F) (xs : List F) (hx : FLAG ∉ xs) :
    v_range FLAG (vec FLAG xs) = .ok ((minmaxOf FLAG xs).2 - (minmaxOf FLAG xs).1) := by
  have hassert : assertValidVec (vec FLAG xs) = .ok () := rfl
  simp only [v_range, hassert, v_len_vec FLAG xs hx, load_vec_zero, minmax_scan_eq, bind,
    Except.bind]
  rfl

/-- What the scan keeps: the first component only decreases, is below every element seen and
is the seed or an element seen; the second only increases, is above every element seen and is
the seed or an element seen. -/
theorem minmax_fold_spec {F : Type} [LinearOrder F] (l : List F) : ∀ s : F × F,
    ((l.foldl minmaxUpdate s).1 ≤ s.1 ∧ (∀ x ∈ l, (l.foldl minmaxUpdate s).1 ≤ x) ∧
      ((l.foldl minmaxUpdate s).1 = s.1 ∨ (l.foldl minmaxUpdate s).1 ∈ l)) ∧
    (s.2 ≤ (l.foldl minmaxUpdate s).2 ∧ (∀ x ∈ l, x ≤ (l.foldl minmaxUpdate s).2) ∧
      ((l.foldl minmaxUpdate s).2 = s.2 ∨ (l.foldl minmaxUpdate s).2 ∈ l)) := by
  induction l with
  | nil => intro s; simp
  | cons x l ih =>
    intro s
    obtain ⟨⟨h1, h2, h3⟩, ⟨k1, k2, k3⟩⟩ := ih (minmaxUpdate s x)
    have a1 : (minmaxUpdate s x).1 ≤ s.1 := by
      simp only [minmaxUpdate]; split <;> [exact le_of_lt ‹_›; exact le_refl _]
    have a2 : (minmaxUpdate s x).1 ≤ x := by
      simp only [minmaxUpdate]; split <;> [exact le_refl _; exact not_lt.mp ‹_›]
    have a3 : (minmaxUpdate s x).1 = s.1 ∨ (minmaxUpdate s x).1 = x := by
      simp only [minmaxUpdate]; split <;> [exact Or.inr rfl; exact Or.inl rfl]
    have b1 : s.2 ≤ (minmaxUpdate s x).2 := by
      simp only [minmaxUpdate]; split <;> [exact le_of_lt ‹_›; exact le_refl _]
    have b2 : x ≤ (minmaxUpdate s x).2 := by
      simp only [minmaxUpdate]; split <;> [exact le_refl _; exact not_lt.mp ‹_›]
    have b3 : (minmaxUpdate s x).2 = s.2 ∨ (minmaxUpdate s x).2 = x := by
      simp only [minmaxUpdate]; split <;> [exact Or.inr rfl; exact Or.inl rfl]
    simp only [List.foldl_cons, List.mem_cons, forall_eq_or_imp]
    refine ⟨⟨le_trans h1 a1, ⟨le_trans h1 a2, h2⟩, ?_⟩, ⟨le_trans b1 k1, ⟨le_trans b2 k1, k2⟩, ?_⟩⟩
    · rcases h3 with h | h
      · rcases a3 with a | a
        · exact Or.inl (h.trans a)
        · exact Or.inr (Or.inl (h.trans a))
      · exact Or.inr (Or.inr h)
    · rcases k3 with h | h
      · rcases b3 with a | a
        · exact Or.inl (h.trans a)
        · exact Or.inr (Or.inl (h.trans a))
      · exact Or.inr (Or.inr h)

/-- On a vector with at least one element the scan leaves its least and its greatest
element. -/
theorem minmaxOf_spec {F : Type} [LinearOrder F] (FLAG : F) (xs : List F)
    (hn : 1 ≤ xs.length) :
    (minmaxOf FLAG xs).1 ∈ xs ∧ (minmaxOf FLAG xs).2 ∈ xs ∧
    ∀ x ∈ xs, (minmaxOf FLAG xs).1 ≤ x ∧ x ≤ (minmaxOf FLAG xs).2 := by
  cases xs with
  | nil => simp at hn
  | cons a rest =>
    obtain ⟨⟨h1, h2, h3⟩, ⟨k1, k2, k3⟩⟩ := minmax_fold_spec rest (a, a)
    simp only [minmaxOf, List.tail_cons, List.headD_cons, List.mem_cons, forall_eq_or_imp]
    refine ⟨?_, ?_, ⟨h1, k1⟩, fun x hx => ⟨h2 x hx, k2 x hx⟩⟩
    · rcases h3 with h | h
      · exact Or.inl h
      · exact Or.inr h
    · rcases k3 with h | h
      · exact Or.inl h
      · exact Or.inr h

/-- C12: for a valid vector `v` of length `n ≥ 1`, `v_range(v)` is `max_val - min_val`, where
`min_val` and `max_val` are elements of `v` and `min_val ≤ v[i] ≤ max_val` for every `i < n`. -/
theorem C12_range {F : Type} [LinearOrder F] [Sub F] (FLAG : F) (xs : List F)
    (hx : FLAG ∉ xs) (hn : 1 ≤ xs.length) :
    ∃ min_val max_val : F, v_range FLAG (vec FLAG xs) = .ok (max_val - min_val) ∧
      min_val ∈ xs ∧ max_val ∈ xs ∧ ∀ x ∈ xs, min_val ≤ x ∧ x ≤ max_val := by
  obtain ⟨h1, h2, h3⟩ := minmaxOf_spec FLAG xs hn
  exact ⟨_, _, v_range_eq FLAG xs hx, h1, h2, h3⟩

/-- C12 at `v = [1, 2, 3, 4]`: the range is `3`. -/
theorem C12_range_witness :
    (99999 : ℚ) ∉ [1, 2, 3, 4] ∧ 1 ≤ [(1 : ℚ), 2, 3, 4].length ∧
    v_range (99999 : ℚ) (some [1, 2, 3, 4, 99999]) = .ok 3 := by
  refine ⟨by norm_num, by norm_num, ?_⟩
  obtain ⟨lo, hi, h, hlo, hhi, hb⟩ :=
    C12_range (99999 : ℚ) [1, 2, 3, 4] (by norm_num) (by norm_num)
  have hlo1 : lo = 1 := by
    have h1 := (hb 1 (by simp)).1
    simp only [List.mem_cons, List.mem_singleton, List.not_mem_nil, or_false] at hlo
    rcases hlo with rfl | rfl | rfl | rfl <;> norm_num at h1 ⊢
  have hhi4 : hi = 4 := by
    have h4 := (hb 4 (by simp)).2
    simp only [List.mem_cons, List.mem_singleton, List.not_mem_nil, or_false] at hhi
    rcases hhi with rfl | rfl | rfl | rfl <;> norm_num at h4 ⊢
  subst hlo1 hhi4
  have e : (4 : ℚ) - 1 = 3 := by norm_num
  rw [e] at h
  exact h

/-! ## Mean and standard deviation -/

theorem fold_eq_sum_range (g : ℝ → ℝ) (xs : List ℝ) :
    xs.foldl (fun sum x => sum + g x) 0 = ∑ i ∈ Finset.range xs.length, g (xs.getD i 0) := by
  rw [foldl_add_eq_sum g, zero_add]
  induction xs with
  | nil => simp
  | cons x xs ih =>
    rw [List.length_cons, Finset.sum_range_succ']
    simp [ih, add_comm]

/-- C13: over the reals, for a valid vector `v` of length `n ≥ 1`, `v_mean(v)` is the sum of
the elements divided by `n`, and `v_std(v)` is the population standard deviation: the square
root of the sum over `i < n` of `(v[i] - mean)²`, divided by `n` and not by `n - 1`. -/
theorem C13_population_std (FLAG : ℝ) (xs : List ℝ) (hx : FLAG ∉ xs) (_ : 1 ≤ xs.length) :
    v_sum FLAG (vec FLAG xs) = .ok (∑ i ∈ Finset.range xs.length, xs.getD i 0) ∧
    v_mean FLAG (vec FLAG xs)
      = .ok ((∑ i ∈ Finset.range xs.length, xs.getD i 0) / (xs.length : ℝ)) ∧
    v_std Real.sqrt FLAG (vec FLAG xs)
      = .ok (Real.sqrt ((∑ i ∈ Finset.range xs.length,
          (xs.getD i 0 - (∑ j ∈ Finset.range xs.length, xs.getD j 0) / (xs.length : ℝ)) ^ 2)
            / (xs.length : ℝ))) := by
  have hsum := fold_eq_sum_range (fun x => x) xs
  refine ⟨?_, ?_, ?_⟩
  · rw [v_sum_eq FLAG xs hx, hsum]
  · rw [v_mean_eq FLAG xs hx, hsum]
  · rw [v_std_eq Real.sqrt FLAG xs hx, hsum, fold_eq_sum_range
      (fun x => (x - (∑ j ∈ Finset.range xs.length, xs.getD j 0) / (xs.length : ℝ)) ^ 2) xs]

/-- C13 at `v = [1, 2, 3, 4]`: the mean is `2.5` and the standard deviation `√1.25`. -/
theorem C13_population_std_witness :
    (99999 : ℝ) ∉ [1, 2, 3, 4] ∧ 1 ≤ [(1 : ℝ), 2, 3, 4].length ∧
    v_mean (99999 : ℝ) (some [1, 2, 3, 4, 99999]) = .ok (5 / 2) ∧
    v_std Real.sqrt (99999 : ℝ) (some [1, 2, 3, 4, 99999]) = .ok (Real.sqrt (5 / 4)) := by
  have h := C13_population_std (99999 : ℝ) [1, 2, 3, 4] (by norm_num) (by norm_num)
  refine ⟨by norm_num, by norm_num, ?_, ?_⟩
  · have h2 := h.2.1
    norm_num [vec, Finset.sum_range_succ] at h2
    exact h2
  · have h3 := h.2.2
    have e : (∑ i ∈ Finset.range [(1 : ℝ), 2, 3, 4].length,
        ([(1 : ℝ), 2, 3, 4].getD i 0
          - (∑ j ∈ Finset.range [(1 : ℝ), 2, 3, 4].length, [(1 : ℝ), 2, 3, 4].getD j 0)
            / ([(1 : ℝ), 2, 3, 4].length : ℝ)) ^ 2) / ([(1 : ℝ), 2, 3, 4].length : ℝ)
        = 5 / 4 := by
      norm_num [Finset.sum_range_succ]
    rw [e] at h3
    exact h3

/-! ## Clamping -/

theorem clampTo_mem_Icc {F : Type} [LinearOrder F] (minV maxV x : F) (h : minV ≤ maxV) :
    minV ≤ clampTo minV maxV x ∧ clampTo minV maxV x ≤ maxV := by
  unfold clampTo
  split
  · exact ⟨le_refl _, h⟩
  · split
    · exact ⟨h, le_refl _⟩
    · exact ⟨not_lt.mp ‹_›, not_lt.mp ‹_›⟩

theorem clampTo_ne_flag {F : Type} [LinearOrder F] (FLAG minV maxV x : F) (h1 : minV ≠ FLAG)
    (h2 : maxV ≠ FLAG) (hx : x ≠ FLAG) : clampTo minV maxV x ≠ FLAG := by
  unfold clampTo
  split
  · exact h1
  · split
    · exact h2
    · exact hx

/-- C14, counterexample: with the terminator `99999`, `v_clamp([0], 1, 0)` returns `[1]`, and
`1` does not lie in the interval from `lo = 1` to `hi = 0`; and `v_clamp([0], 99999, 100000)`
returns the block `[99999, 99999]`, whose `v_len` is `0` and not `1`. -/
theorem C14_clamp_counterexample :
    v_len (99999 : ℚ) (some [0, 99999]) = .ok 1 ∧
    v_clamp (99999 : ℚ) (some [0, 99999]) 1 0 = .ok (some [1, 99999]) ∧
    ¬ ((1 : ℚ) ≤ 1 ∧ (1 : ℚ) ≤ 0) ∧
    v_clamp (99999 : ℚ) (some [0, 99999]) 99999 100000 = .ok (some [99999, 99999]) ∧
    (v_clamp (99999 : ℚ) (some [0, 99999]) 99999 100000 >>= v_len 99999) = .ok 0 := by
  have h1 : v_clamp (99999 : ℚ) (some [0, 99999]) 1 0 = .ok (some [1, 99999]) := by
    have h := v_clamp_eq (99999 : ℚ) [0] (by norm_num) 1 0
    norm_num [vec, clampTo] at h
    exact h
  have h2 : v_clamp (99999 : ℚ) (some [0, 99999]) 99999 100000
      = .ok (some [99999, 99999]) := by
    have h := v_clamp_eq (99999 : ℚ) [0] (by norm_num) 99999 100000
    norm_num [vec, clampTo] at h
    exact h
  refine ⟨?_, h1, by norm_num, h2, ?_⟩
  · simpa [vec] using v_len_vec (99999 : ℚ) [0] (by norm_num)
  · rw [h2]
    simp [bind, Except.bind, v_len, v_len.scan]

/-- C14, amended: for a valid vector `a` of length `n` and all bounds `lo`, `hi`,
`v_clamp(a, lo, hi)` returns a block of `n + 1` slots with the terminator in slot `n`, whose
slot `i < n` is `lo` when `a[i] < lo`, else `hi` when `a[i] > hi`, else `a[i]`.  When
`lo ≤ hi` each of these elements lies between `lo` and `hi`.  When neither `lo` nor `hi` is
`VEC_END_FLAG` the result is a valid vector of length `n`. -/
theorem C14_clamp_amended {F : Type} [LinearOrder F] [Zero F] (FLAG : F) (xs : List F)
    (hx : FLAG ∉ xs) (lo hi : F) :
    v_clamp FLAG (vec FLAG xs) lo hi
      = .ok (some (xs.map (fun x => if x < lo then lo else if x > hi then hi else x)
          ++ [FLAG])) ∧
    (lo ≤ hi → ∀ y ∈ xs.map (fun x => if x < lo then lo else if x > hi then hi else x),
      lo ≤ y ∧ y ≤ hi) ∧
    (lo ≠ FLAG → hi ≠ FLAG → (v_clamp FLAG (vec FLAG xs) lo hi >>= v_len FLAG) = .ok xs.length)
    := by
  have heq := v_clamp_eq FLAG xs hx lo hi
  refine ⟨heq, ?_, ?_⟩
  · intro hle y hy
    obtain ⟨x, _, rfl⟩ := List.mem_map.mp hy
    exact clampTo_mem_Icc lo hi x hle
  · intro h1 h2
    have hz : FLAG ∉ xs.map (clampTo lo hi) := by
      intro hmem
      obtain ⟨x, hxm, hxe⟩ := List.mem_map.mp hmem
      exact clampTo_ne_flag FLAG lo hi x h1 h2 (fun e => hx (e ▸ hxm)) hxe
    rw [heq]
    simp only [bind, Except.bind]
    rw [v_len_vec FLAG _ hz, List.length_map]

/-- C14, amended, at `a = [-1, 0.5, 2]`, `lo = 0`, `hi = 1`: the result is `[0, 0.5, 1]`. -/
theorem C14_clamp_amended_witness :
    (99999 : ℚ) ∉ [-1, 1 / 2, 2] ∧
    v_clamp (99999 : ℚ) (some [-1, 1 / 2, 2, 99999]) 0 1 = .ok (some [0, 1 / 2, 1, 99999]) := by
  have h := (C14_clamp_amended (99999 : ℚ) [-1, 1 / 2, 2] (by norm_num) 0 1).1
  norm_num [vec] at h
  exact ⟨by norm_num, h⟩

/-! ## Min-max scaling -/

/-- C15: in exact arithmetic, for a valid vector `a` of length `n ≥ 1`, `v_minmaxscale(a)`
returns the block whose slot `i < n` is `(a[i] - min) / (max - min)` and whose slot `n` is the
terminator, where `min` and `max` are the least and the greatest element of `a`.  When
`max ≠ min` every one of these elements lies between `0` and `1`, a least element is mapped
to `0` and a greatest element to `1`. -/
theorem C15_minmaxscale {F : Type} [LinearOrderedField F] (FLAG : F) (xs : List F)
    (hx : FLAG ∉ xs) (hn : 1 ≤ xs.length) :
    ∃ min_val max_val : F, min_val ∈ xs ∧ max_val ∈ xs ∧
      (∀ x ∈ xs, min_val ≤ x ∧ x ≤ max_val) ∧
      v_minmaxscale FLAG (vec FLAG xs)
        = .ok (some (xs.map (fun x => (x - min_val) / (max_val - min_val)) ++ [FLAG])) ∧
      (max_val ≠ min_val →
        (∀ x ∈ xs, 0 ≤ (x - min_val) / (max_val - min_val) ∧
          (x - min_val) / (max_val - min_val) ≤ 1) ∧
        (min_val - min_val) / (max_val - min_val) = 0 ∧
        (max_val - min_val) / (max_val - min_val) = 1) := by
  obtain ⟨h1, h2, h3⟩ := minmaxOf_spec FLAG xs hn
  refine ⟨_, _, h1, h2, h3, v_minmaxscale_eq FLAG xs hx, ?_⟩
  intro hne
  have hle : (minmaxOf FLAG xs).1 ≤ (minmaxOf FLAG xs).2 := (h3 _ h1).2
  have hpos : 0 < (minmaxOf FLAG xs).2 - (minmaxOf FLAG xs).1 :=
    sub_pos.mpr (lt_of_le_of_ne hle (Ne.symm hne))
  refine ⟨?_, by simp, div_self (ne_of_gt hpos)⟩
  intro x hxm
  obtain ⟨hlo, hhi⟩ := h3 x hxm
  constructor
  · exact div_nonneg (sub_nonneg.mpr hlo) (le_of_lt hpos)
  · rw [div_le_one hpos]
    linarith

/-- C15 at `a = [2, 4, 6]`: the result is `[0, 0.5, 1]`. -/
theorem C15_minmaxscale_witness :
    (99999 : ℚ) ∉ [2, 4, 6] ∧ 1 ≤ [(2 : ℚ), 4, 6].length ∧
    v_minmaxscale (99999 : ℚ) (some [2, 4, 6, 99999]) = .ok (some [0, 1 / 2, 1, 99999]) := by
  refine ⟨by norm_num, by norm_num, ?_⟩
  obtain ⟨lo, hi, hlo, hhi, hb, h, _⟩ :=
    C15_minmaxscale (99999 : ℚ) [2, 4, 6] (by norm_num) (by norm_num)
  have hlo2 : lo = 2 := by
    have h1 := (hb 2 (by simp)).1
    simp only [List.mem_cons, List.mem_singleton, List.not_mem_nil, or_false] at hlo
    rcases hlo with rfl | rfl | rfl <;> norm_num at h1 ⊢
  have hhi6 : hi = 6 := by
    have h6 := (hb 6 (by simp)).2
    simp only [List.mem_cons, List.mem_singleton, List.not_mem_nil, or_false] at hhi
    rcases hhi with rfl | rfl | rfl <;> norm_num at h6 ⊢
  subst hlo2 hhi6
  norm_num [vec] at h
  exact h

/-! ## The null guard -/

/-- C16, the code at the failing input `v_sum(NULL)`: `v_sum` has no call of `assertValidVec`
and goes on to read through the null pointer in `v_len`, where `v_mean`, `v_range`, `v_std`,
`v_clamp`, `v_minmaxscale` and `v_standardize` exit with the diagnostic
`Attempting to manipulate NULL vector` before any read.  On a pointer that is not null the
guard returns. -/
theorem C16_null_guard {F : Type} [DecidableEq F] [Zero F] [Add F] [Sub F] [Div F] [NatCast F]
    [Pow F Nat] [LT F] [DecidableRel (fun x y : F => x < y)] (sqrt : F → F) (FLAG minV maxV : F)
    (buf : List F) :
    v_sum FLAG none = .error .nullDeref ∧
    v_mean FLAG none = .error (.exitFailure "Attempting to manipulate NULL vector\n") ∧
    v_range FLAG none = .error (.exitFailure "Attempting to manipulate NULL vector\n") ∧
    v_std sqrt FLAG none = .error (.exitFailure "Attempting to manipulate NULL vector\n") ∧
    v_clamp FLAG none minV maxV
      = .error (.exitFailure "Attempting to manipulate NULL vector\n") ∧
    v_minmaxscale FLAG none = .error (.exitFailure "Attempting to manipulate NULL vector\n") ∧
    v_standardize sqrt FLAG none
      = .error (.exitFailure "Attempting to manipulate NULL vector\n") ∧
    assertValidVec (some buf) = .ok () :=
  ⟨rfl, rfl, rfl, rfl, rfl, rfl, rfl, rfl⟩

/-! ## The length scan -/

theorem first_flag_split {F : Type} [DecidableEq F] (FLAG : F) (buf : List F) (h : FLAG ∈ buf) :
    ∃ pre rest : List F, buf = pre ++ FLAG :: rest ∧ FLAG ∉ pre := by
  induction buf with
  | nil => simp at h
  | cons x buf ih =>
    by_cases hx : x = FLAG
    · exact ⟨[], buf, by simp [hx], by simp⟩
    · have hmem : FLAG ∈ buf := by
        rcases List.mem_cons.mp h with e | e
        · exact absurd e.symm hx
        · exact e
      obtain ⟨pre, rest, hbuf, hpre⟩ := ih hmem
      refine ⟨x :: pre, rest, by simp [hbuf], ?_⟩
      intro hm
      rcases List.mem_cons.mp hm with e | e
      · exact hx e.symm
      · exact hpre e

/-- C19: on every block that holds `VEC_END_FLAG` in some slot, `v_len` returns, and what it
returns is the least index `k` with `v[k] == VEC_END_FLAG`: slot `k` holds the terminator and
no slot `i < k` does.  It reads the slots `0 .. k` only: it returns `k` on the block cut after
slot `k`, and on every block that agrees with `v` on the slots `0 .. k`. -/
theorem C19_v_len_least {F : Type} [DecidableEq F] (FLAG : F) (buf : List F)
    (h : FLAG ∈ buf) :
    ∃ k : Nat, v_len FLAG (some buf) = .ok k ∧ buf[k]? = some FLAG ∧
      (∀ i, i < k → ∃ x, buf[i]? = some x ∧ x ≠ FLAG) ∧
      v_len FLAG (some (buf.take (k + 1))) = .ok k ∧
      ∀ other : List F, v_len FLAG (some (buf.take (k + 1) ++ other)) = .ok k := by
  obtain ⟨pre, rest, hbuf, hpre⟩ := first_flag_split FLAG buf h
  subst hbuf
  have htake : (pre ++ FLAG :: rest).take (pre.length + 1) = pre ++ [FLAG] := by
    rw [List.take_append_eq_append_take]
    simp
  refine ⟨pre.length, ?_, ?_, ?_, ?_, ?_⟩
  · simp [v_len, scan_append FLAG pre rest hpre]
  · rw [List.getElem?_append_right (le_refl _)]
    simp
  · intro i hi
    refine ⟨pre[i], ?_, ?_⟩
    · rw [List.getElem?_append_left hi]
      exact List.getElem?_eq_getElem hi
    · intro e
      exact hpre (e ▸ List.getElem_mem hi)
  · rw [htake]
    exact v_len_vec FLAG pre hpre
  · intro other
    rw [htake]
    simp [v_len, scan_append FLAG pre other hpre]

/-- C19 at the block `[1, 2, 99999, 7, 99999]`: the scan stops at slot `2`. -/
theorem C19_v_len_least_witness :
    (99999 : ℚ) ∈ [1, 2, 99999, 7, 99999] ∧
    v_len (99999 : ℚ) (some [1, 2, 99999, 7, 99999]) = .ok 2 := by
  refine ⟨by simp, ?_⟩
  obtain ⟨k, hk, hget, hlt, _, _⟩ :=
    C19_v_len_least (99999 : ℚ) [1, 2, 99999, 7, 99999] (by simp)
  have hk5 : k < 5 := by
    by_contra hc
    rw [List.getElem?_eq_none (by simpa using hc)] at hget
    cases hget
  have hk2 : k = 2 := by
    interval_cases k
    · norm_num at hget
    · norm_num at hget
    · rfl
    · norm_num at hget
    · obtain ⟨x, hx, hne⟩ := hlt 2 (by norm_num)
      simp only [List.getElem?_cons_succ, List.getElem?_cons_zero, Option.some.injEq] at hx
      exact absurd hx.symm hne
  rw [hk2] at hk
  exact hk

/-! ## The range of the empty vector -/

/-- C20: on the empty vector `v_make(0)`, the one-slot block `[VEC_END_FLAG]`, `v_range`
returns: `v_len` is `0`, the two reads of slot `0` are inside the block and seed `min_val` and
`max_val` with the terminator, the loop from `i = 1` runs no pass, and the value returned is
`VEC_END_FLAG - VEC_END_FLAG`, which is `0` in exact arithmetic. -/
theorem C20_range_empty {F : Type} [DecidableEq F] [AddGroup F] [LT F]
    [DecidableRel (fun x y : F => x < y)] (FLAG : F) (s : F × F) :
    v_make FLAG 0 = .ok (some [FLAG]) ∧
    v_len FLAG (some [FLAG]) = .ok 0 ∧
    load (some [FLAG]) 0 = .ok FLAG ∧
    forLoop (minmaxStep (some [FLAG])) (0 - 1) 1 s = .ok s ∧
    (v_make FLAG 0 >>= v_range FLAG) = .ok (FLAG - FLAG) ∧
    (v_make FLAG 0 >>= v_range FLAG) = .ok 0 := by
  have hmake : v_make FLAG 0 = .ok (some [FLAG]) := by simpa using v_make_eq FLAG 0
  have hlen : v_len FLAG (some [FLAG]) = .ok 0 := by simp [v_len, v_len.scan]
  have hload : load (some [FLAG]) 0 = .ok FLAG := by simp [load]
  have hrange : (v_make FLAG 0 >>= v_range FLAG) = .ok (FLAG - FLAG) := by
    rw [hmake]
    simp only [bind, Except.bind, v_range, assertValidVec, hlen, hload, forLoop]
    rfl
  refine ⟨hmake, hlen, hload, rfl, hrange, ?_⟩
  rw [hrange, sub_self]

/-! ## Printing -/

theorem intercalate_go_acc (sep : String) (l : List String) : ∀ acc : String,
    String.intercalate.go acc sep l = acc ++ String.intercalate.go "" sep l := by
  induction l with
  | nil => intro acc; simp [String.intercalate.go]
  | cons a l ih =>
    intro acc
    simp only [String.intercalate.go]
    rw [ih (acc ++ sep ++ a), ih ("" ++ sep ++ a)]
    simp [String.append_assoc]

theorem intercalate_cons_cons (sep a b : String) (l : List String) :
    sep.intercalate (a :: b :: l) = a ++ sep ++ sep.intercalate (b :: l) := by
  simp only [String.intercalate, String.intercalate.go]
  rw [intercalate_go_acc sep l (a ++ sep ++ b), intercalate_go_acc sep l b]
  simp [String.append_assoc]

/-- A loop that appends the rendering of each element and, after every element but the last
of the vector, one space. -/
theorem forLoop_print {α : Type} (body : Nat → String → Except Fault String) (f : α → String)
    (len : Nat) : ∀ (rest : List α) (k : Nat) (out : String), k + rest.length = len →
    (∀ j x, rest[j]? = some x → ∀ t, body (k + j) t
      = .ok (if k + j < len - 1 then t ++ f x ++ " " else t ++ f x)) →
    forLoop body rest.length k out = .ok (out ++ " ".intercalate (rest.map f)) := by
  intro rest
  induction rest with
  | nil => intro k out _ _; simp [forLoop, String.intercalate]
  | cons x rest ih =>
    intro k out hlen hbody
    have h0 := hbody 0 x (by simp) out
    simp only [Nat.add_zero] at h0
    have hih := fun t => ih (k + 1) t (by simp only [List.length_cons] at hlen; omega) (by
      intro j z hz t
      have := hbody (j + 1) z (by simpa using hz) t
      simpa [Nat.add_assoc, Nat.add_comm 1 j] using this)
    simp only [List.length_cons, forLoop, h0, bind, Except.bind]
    cases rest with
    | nil =>
      have hk : ¬ k < len - 1 := by simp only [List.length_cons, List.length_nil] at hlen; omega
      simp [hk, forLoop, String.intercalate, String.intercalate.go]
    | cons y rest =>
      have hk : k < len - 1 := by simp only [List.length_cons] at hlen; omega
      simp only [hk, if_true]
      rw [hih]
      simp only [List.map_cons]
      rw [intercalate_cons_cons]
      simp [String.append_assoc]

theorem v_print_eq {F : Type} [DecidableEq F] (fmt : Nat → F → String) (digits : Nat)
    (FLAG : F) (xs : List F) (hx : FLAG ∉ xs) :
    v_print fmt digits FLAG (vec FLAG xs)
      = .ok ("[" ++ " ".intercalate (xs.map (fmt digits)) ++ "] n=" ++ toString xs.length
          ++ "\n") := by
  have h := forLoop_print (fun i out => do
      let out := out ++ fmt digits (← load (vec FLAG xs) i)
      if i < xs.length - 1 then
        pure (out ++ " ")
      else
        pure out) (fmt digits) xs.length xs 0 "[" (by simp) (by
      intro j x hj t
      simp only [Nat.zero_add, load_vec FLAG xs j x hj, bind, Except.bind, pure, Except.pure]
      split <;> rfl)
  simp only [bind, Except.bind] at h
  simp only [v_print, v_len_vec FLAG xs hx, bind, Except.bind, h]
  rfl

/-- C17: for a valid vector `v` of length `n`, `v_print` writes `[`, then the `n` elements,
each rendered by `printf("%.*f", PRINTV_SIGDIGITS, v[i])`, with exactly one space between
consecutive elements and none before `]`, then `] n=<n>` and a newline; for the empty vector
it writes `[] n=0` and a newline. -/
theorem C17_print_format {F : Type} [DecidableEq F] (fmt : Nat → F → String)
    (PRINTV_SIGDIGITS : Nat) (FLAG : F) (xs : List F) (hx : FLAG ∉ xs) :
    v_print fmt PRINTV_SIGDIGITS FLAG (vec FLAG xs)
      = .ok ("[" ++ " ".intercalate (xs.map (fmt PRINTV_SIGDIGITS)) ++ "] n="
          ++ toString xs.length ++ "\n") ∧
    v_print fmt PRINTV_SIGDIGITS FLAG (vec FLAG []) = .ok "[] n=0\n" :=
  ⟨v_print_eq fmt PRINTV_SIGDIGITS FLAG xs hx,
    (v_print_eq fmt PRINTV_SIGDIGITS FLAG [] (by simp)).trans
      (congrArg Except.ok (by simp only [List.map_nil, List.length_nil]; decide))⟩

/-- C17 at `v = [1, 1, 1]` with two digits: the text is `[1.00 1.00 1.00] n=3` and a
newline. -/
theorem C17_print_format_witness :
    (99999 : ℚ) ∉ [1, 1, 1] ∧
    v_print formatFixed 2 (99999 : ℚ) (some [1, 1, 1, 99999])
      = .ok "[1.00 1.00 1.00] n=3\n" :=
  ⟨by norm_num,
    (C17_print_format formatFixed 2 (99999 : ℚ) [1, 1, 1] (by norm_num)).1.trans
      (congrArg Except.ok (by decide))⟩

/-! ## The text file -/

end CVector
